import Mathlib

set_option maxRecDepth 20000
set_option allowUnsafeReducibility true
/- The Batteries rational-number operations are `@[irreducible]`, which
blocks `decide` on concrete rational arithmetic; the embedding is exact
rational arithmetic throughout, so restore the definitional transparency
(the kernel ignores reducibility attributes, so proofs are unaffected). -/
attribute [semireducible] Rat.mul Rat.add Rat.inv Rat.sub Rat.div Rat.neg Rat.normalize

/-!
Verification of the corridor traffic-simulation core: a shallow embedding of
`src/models/corridor_network.py`, `src/models/traffic_simulator.py`,
`src/models/interventions.py` and `src/models/emissions.py`, followed by
theorems settling the behavioural claims about this code.

Modelling conventions:
* Python `dict` (string-keyed, insertion ordered, duplicate free) is an
  association list `List (κ × α)`; `aget`/`aset`/`amod`/`adel` mirror
  `d[k]`, `d[k] = v` (update-or-append), `if k in d: mutate d[k]`, `del d[k]`.
* Python floats are `ℚ` (all arithmetic in the source is exact on the
  rationals); `float('inf')` is `⊤ : WithTop ℚ`.
* Code that can raise (`KeyError`, `ZeroDivisionError`, unbounded loops)
  returns `Option`: `none` models an uncaught exception / divergence.
-/

/-! ## Association-list helpers (Python dict semantics) -/

def aget {κ α : Type} [DecidableEq κ] : List (κ × α) → κ → Option α
  | [], _ => none
  | (k, v) :: t, key => if k = key then some v else aget t key

/-- Mirrors `d[key] = v`: update the first binding in place, else append (dict insert). -/
def aset {κ α : Type} [DecidableEq κ] : List (κ × α) → κ → α → List (κ × α)
  | [], key, v => [(key, v)]
  | (k, w) :: t, key, v => if k = key then (k, v) :: t else (k, w) :: aset t key v

/-- Mutate the binding at `key` if present, else leave the list unchanged
(the `if key in d: d[key]... = ...` pattern). -/
def amod {κ α : Type} [DecidableEq κ] : List (κ × α) → κ → (α → α) → List (κ × α)
  | [], _, _ => []
  | (k, w) :: t, key, f => if k = key then (k, f w) :: t else (k, w) :: amod t key f

/-- Mirrors `del d[key]`: remove the binding at `key`. -/
def adel {κ α : Type} [DecidableEq κ] : List (κ × α) → κ → List (κ × α)
  | [], _ => []
  | (k, w) :: t, key => if k = key then t else (k, w) :: adel t key

/-! ## Data model -/

/-- One entry of `CorridorNetwork.segment_data` (built in `_build_graph`):
static attributes from the segments CSV plus the dynamic state the simulator
and the mutations write (`current_flow`, `current_speed`, `queue_length`,
and the `closed` key added by `close_segment`, absent = `false`). -/
structure Segment where
  fromI : String
  toI : String
  length_km : ℚ
  lanes : Int
  speed_limit_kmh : ℚ
  is_one_way : Bool
  zone_id : String
  road_type : String
  road_name : String
  current_flow : ℚ
  current_speed : ℚ
  queue_length : ℚ
  closed : Bool
  deriving DecidableEq, Repr

/-- One entry of `CorridorNetwork.intersection_data`. The two `Option` fields
model the stray `cycle_time` / `green_time` keys that
`InterventionEngine.rollback_intervention` writes via `dict.update`
(distinct from the `_sec` keys every reader consults); absent = `none`. -/
structure Intersection where
  lat : ℚ
  lon : ℚ
  has_signal : Bool
  cycle_time_sec : Int
  green_time_sec : Int
  road_name : String
  zone_id : String
  cycle_time : Option Int
  green_time : Option Int
  deriving DecidableEq, Repr

/-- One row of the OD (origin-destination) demand table. -/
structure ODEntry where
  origin_intersection : String
  destination_intersection : String
  vehicles_per_hour : ℚ
  vehicle_type : String
  deriving DecidableEq, Repr

/-- The `CorridorNetwork` object: adjacency dict, segment dict,
intersection dict, the shortest-path cache `precomputed_paths`, and the OD
table it was constructed with. -/
structure CorridorNetwork where
  graph : List (String × List (String × String))
  segment_data : List (String × Segment)
  intersection_data : List (String × Intersection)
  precomputed_paths : List ((String × String) × (List String × WithTop ℚ))
  od_matrix : List ODEntry
  deriving DecidableEq, Repr

/-- Input row of the segments CSV (fields listed in spec §6). -/
structure SegmentRow where
  segment_id : String
  from_intersection : String
  to_intersection : String
  length_km : ℚ
  lanes : Int
  speed_limit_kmh : ℚ
  is_one_way : Bool
  zone_id : String
  road_type : String
  road_name : String
  deriving DecidableEq, Repr

/-- Input row of the intersections CSV. -/
structure IntersectionRow where
  intersection_id : String
  latitude : ℚ
  longitude : ℚ
  has_signal : Bool
  cycle_time_sec : Int
  green_time_sec : Int
  road_name : String
  zone_id : String
  deriving DecidableEq, Repr

namespace CorridorNetwork

/-- Body of `_build_graph` for one row: store the segment data (with the
initial dynamic state of lines 53-55) and append the directed edge. -/
def build_graph_step (net : CorridorNetwork) (row : SegmentRow) : CorridorNetwork :=
  let seg : Segment :=
    { fromI := row.from_intersection
      toI := row.to_intersection
      length_km := row.length_km
      lanes := row.lanes
      speed_limit_kmh := row.speed_limit_kmh
      is_one_way := row.is_one_way
      zone_id := row.zone_id
      road_type := row.road_type
      road_name := row.road_name
      current_flow := 0
      current_speed := row.speed_limit_kmh
      queue_length := 0
      closed := false }
  let sd := aset net.segment_data row.segment_id seg
  let g :=
    if (aget net.graph row.from_intersection).isSome then
      amod net.graph row.from_intersection
        (fun adj => adj ++ [(row.to_intersection, row.segment_id)])
    else
      net.graph ++ [(row.from_intersection, [(row.to_intersection, row.segment_id)])]
  { net with segment_data := sd, graph := g }

/-- Body of `_build_intersection_data` for one row. -/
def build_intersection_step (net : CorridorNetwork) (row : IntersectionRow) :
    CorridorNetwork :=
  let i : Intersection :=
    { lat := row.latitude
      lon := row.longitude
      has_signal := row.has_signal
      cycle_time_sec := row.cycle_time_sec
      green_time_sec := row.green_time_sec
      road_name := row.road_name
      zone_id := row.zone_id
      cycle_time := none
      green_time := none }
  { net with intersection_data := aset net.intersection_data row.intersection_id i }

/-- Mirrors `CorridorNetwork.__init__`: build the graph then the intersection data;
the path cache starts empty. -/
def build (segs : List SegmentRow) (ints : List IntersectionRow)
    (od : List ODEntry) : CorridorNetwork :=
  let net0 : CorridorNetwork :=
    { graph := [], segment_data := [], intersection_data := [],
      precomputed_paths := [], od_matrix := od }
  let net1 := segs.foldl build_graph_step net0
  ints.foldl build_intersection_step net1

/-- Mirrors `get_segment` (returns `{}` for unknown id, modelled as `none`). -/
def get_segment (net : CorridorNetwork) (segment_id : String) : Option Segment :=
  aget net.segment_data segment_id

/-- Mirrors `update_segment_lanes`: set the lane count and clear the path cache;
returns `false` (and changes nothing) for an unknown id. -/
def update_segment_lanes (net : CorridorNetwork) (segment_id : String)
    (new_lanes : Int) : CorridorNetwork × Bool :=
  if (aget net.segment_data segment_id).isSome then
    ({ net with
        segment_data := amod net.segment_data segment_id
          (fun s => { s with lanes := new_lanes })
        precomputed_paths := [] }, true)
  else (net, false)

/-- Mirrors `close_segment`: mark closed, remove the directed edge from the
adjacency list, clear the path cache. -/
def close_segment (net : CorridorNetwork) (segment_id : String) :
    CorridorNetwork × Bool :=
  match aget net.segment_data segment_id with
  | none => (net, false)
  | some seg =>
    ({ net with
        segment_data := amod net.segment_data segment_id
          (fun s => { s with closed := true })
        graph := amod net.graph seg.fromI
          (fun adj => adj.filter (fun p => p.2 ≠ segment_id))
        precomputed_paths := [] }, true)

/-- Mirrors `reopen_segment`: clear the closed flag, re-add the edge, clear the cache;
fails on an unknown id or a segment that is not closed. -/
def reopen_segment (net : CorridorNetwork) (segment_id : String) :
    CorridorNetwork × Bool :=
  match aget net.segment_data segment_id with
  | none => (net, false)
  | some seg =>
    if seg.closed then
      let g :=
        if (aget net.graph seg.fromI).isSome then
          amod net.graph seg.fromI (fun adj => adj ++ [(seg.toI, segment_id)])
        else
          net.graph ++ [(seg.fromI, [(seg.toI, segment_id)])]
      ({ net with
          segment_data := amod net.segment_data segment_id
            (fun s => { s with closed := false })
          graph := g
          precomputed_paths := [] }, true)
    else (net, false)

/-- Mirrors `update_signal_timing`: clamp the new green time to `[15, 90]` seconds.
Note: unlike the three mutations above, this method does not touch
`precomputed_paths`. -/
def update_signal_timing (net : CorridorNetwork) (intersection_id : String)
    (green_time_delta : Int) : CorridorNetwork × Bool :=
  if (aget net.intersection_data intersection_id).isSome then
    ({ net with
        intersection_data := amod net.intersection_data intersection_id
          (fun i => { i with
            green_time_sec := max 15 (min 90 (i.green_time_sec + green_time_delta)) }) },
      true)
  else (net, false)

/-- The second (effective) definition of `update_segment_state`
(line 314): stores flow, speed, and the third argument into
`queue_length`. -/
def update_segment_state (net : CorridorNetwork) (segment_id : String)
    (flow speed queue : ℚ) : CorridorNetwork :=
  { net with
      segment_data := amod net.segment_data segment_id
        (fun s => { s with current_flow := flow, current_speed := speed,
                           queue_length := queue }) }

/-- Mirrors `get_all_segments`: the segment ids in dict order. -/
def get_all_segments (net : CorridorNetwork) : List String :=
  net.segment_data.map Prod.fst

end CorridorNetwork

/-! ## Dijkstra (`CorridorNetwork.dijkstra`)

The Python loop (lines 102-140) uses `heapq` over `(distance, node)` tuples,
which pop in lexicographic order. The heap is modelled as a plain list whose
`popMin` removes the leftmost lexicographically-least entry; `heappush`
appends. The unbounded `while pq:` loop is modelled with explicit fuel; too
little fuel yields `none`, and `dijkstraFuel` is proved sufficient below. -/

namespace CorridorNetwork

/-- Lexicographic order on `(distance, node)`, the order `heapq` pops. -/
def pqLe (a b : ℚ × String) : Prop :=
  a.1 < b.1 ∨ (a.1 = b.1 ∧ a.2 ≤ b.2)

instance (a b : ℚ × String) : Decidable (pqLe a b) := by
  unfold pqLe; infer_instance

/-- Remove a lexicographically-least entry from the heap. -/
def popMin : List (ℚ × String) → Option ((ℚ × String) × List (ℚ × String))
  | [] => none
  | e :: t =>
    match popMin t with
    | none => some (e, [])
    | some (m, rest) => if pqLe e m then some (e, t) else some (m, e :: rest)

/-- State of the Dijkstra loop: `distances`, `parent`, `parent_segment`
(origin maps to `none`), and the priority queue. -/
structure DState where
  dist : List (String × ℚ)
  parent : List (String × Option String)
  parentSeg : List (String × Option String)
  pq : List (ℚ × String)
  deriving DecidableEq, Repr

/-- Mirrors `distances.get(node, float('inf'))`. -/
def distOf (dist : List (String × ℚ)) (v : String) : WithTop ℚ :=
  match aget dist v with
  | none => ⊤
  | some q => (q : WithTop ℚ)

/-- Relax one outgoing edge `(next_node, seg_id)` of the popped node `u`
whose popped distance is `d` (lines 129-137). A missing segment id would be
a `KeyError` (`none`). -/
def relaxEdge (net : CorridorNetwork) (u : String) (d : ℚ) (st : DState)
    (p : String × String) : Option DState :=
  match aget net.segment_data p.2 with
  | none => none
  | some seg =>
    let nd := d + seg.length_km
    if (nd : WithTop ℚ) < distOf st.dist p.1 then
      some { dist := aset st.dist p.1 nd
             parent := aset st.parent p.1 (some u)
             parentSeg := aset st.parentSeg p.1 (some p.2)
             pq := st.pq ++ [(nd, p.1)] }
    else some st

/-- Relax every outgoing edge of `u` in adjacency order. -/
def relaxAll (net : CorridorNetwork) (u : String) (d : ℚ) :
    List (String × String) → DState → Option DState
  | [], st => some st
  | p :: rest, st =>
    match relaxEdge net u d st p with
    | none => none
    | some st' => relaxAll net u d rest st'

/-- Path reconstruction (lines 116-121): follow parent pointers from the
destination, collecting segment ids, then reverse. Fuel bounds the walk up
the parent pointers; a missing key is a `KeyError` (`none`). -/
def reconstruct (parent parentSeg : List (String × Option String)) :
    Nat → String → List String → Option (List String)
  | 0, _, _ => none
  | Nat.succ fuel, node, acc =>
    match aget parent node with
    | none => none
    | some none => some acc.reverse
    | some (some u) =>
      match aget parentSeg node with
      | some (some s) => reconstruct parent parentSeg fuel u (acc ++ [s])
      | _ => none

/-- One step per fuel unit of the `while pq:` loop. -/
def dloop (net : CorridorNetwork) (destination : String) :
    Nat → DState → Option (List String × WithTop ℚ)
  | 0, _ => none
  | Nat.succ fuel, st =>
    match popMin st.pq with
    | none => some ([], ⊤)
    | some ((d, u), pq') =>
      if distOf st.dist u < (d : WithTop ℚ) then
        dloop net destination fuel { st with pq := pq' }
      else if u = destination then
        match aget st.dist u with
        | none => none
        | some q =>
          match reconstruct st.parent st.parentSeg (st.parent.length + 1) u [] with
          | none => none
          | some segs => some (segs, (q : WithTop ℚ))
      else
        match relaxAll net u d ((aget net.graph u).getD []) { st with pq := pq' } with
        | none => none
        | some st' => dloop net destination fuel st'

/-- Initial loop state for a given origin. -/
def initState (origin : String) : DState :=
  { dist := [(origin, 0)], parent := [(origin, none)],
    parentSeg := [(origin, none)], pq := [((0 : ℚ), origin)] }

/-- Total number of directed edges in the adjacency structure. -/
def edgeCount (net : CorridorNetwork) : Nat :=
  (net.graph.map (fun e => e.2.length)).sum

/-- Fuel sufficient for the loop (proved below): at most one valid pop per
node, hence at most `1 + edgeCount` pushes, plus the final empty-queue
check. -/
def dijkstraFuel (net : CorridorNetwork) : Nat :=
  edgeCount net + 2

/-- Mirrors `dijkstra`: consult `precomputed_paths` first; on a finite result cache
it (line 124); the unreachable result `([], ∞)` (line 140) is returned
without caching. The (possibly) updated network is returned alongside. -/
def dijkstra (net : CorridorNetwork) (origin destination : String) :
    Option ((List String × WithTop ℚ) × CorridorNetwork) :=
  match aget net.precomputed_paths (origin, destination) with
  | some r => some (r, net)
  | none =>
    match dloop net destination (dijkstraFuel net) (initState origin) with
    | none => none
    | some (p, d) =>
      if d = ⊤ then some ((p, d), net)
      else
        some ((p, d),
          { net with
              precomputed_paths := aset net.precomputed_paths (origin, destination) (p, d) })

end CorridorNetwork

/-! ## TrafficSimulator -/

/-- One entry of the per-segment results dict (lines 189-196). -/
structure SegResult where
  flow_vph : ℚ
  speed_kmh : ℚ
  travel_time_min : ℚ
  congestion_ratio : ℚ
  road_name : String
  zone_id : String
  deriving DecidableEq, Repr

/-- One entry of the per-zone aggregate dict (lines 204-216). -/
structure ZoneResult where
  total_flow : ℚ
  avg_speed : ℚ
  avg_travel_time : ℚ
  num_segments : Nat
  total_distance : ℚ
  deriving DecidableEq, Repr

/-- One entry of the OD travel-time list (lines 233-239). -/
structure ODTravelTime where
  origin : String
  destination : String
  travel_time_min : ℚ
  distance_km : WithTop ℚ
  num_segments : Nat
  deriving DecidableEq, Repr

/-- The value stored in `simulation_results` for one scenario. -/
structure SimResult where
  total_vehicles : ℚ
  segments : List (String × SegResult)
  zones : List (String × ZoneResult)
  od_travel_times : List ODTravelTime
  deriving DecidableEq, Repr

/-- The mutable state of a `TrafficSimulator` together with the network it
aliases (Python shares one `CorridorNetwork` object between the network,
the simulator and the intervention engine, so the network is part of the
simulator state here). -/
structure SimState where
  network : CorridorNetwork
  segment_flows : List (String × ℚ)
  segment_speeds : List (String × ℚ)
  segment_travel_times : List (String × ℚ)
  od_paths : List ((String × String) × (List String × WithTop ℚ))
  simulation_results : List (String × SimResult)
  deriving DecidableEq, Repr

namespace TrafficSimulator

/-- Lexicographic order on OD pairs, the key order of `pandas.groupby`. -/
def pairLe (a b : String × String) : Prop :=
  a.1 < b.1 ∨ (a.1 = b.1 ∧ a.2 ≤ b.2)

instance (a b : String × String) : Decidable (pairLe a b) := by
  unfold pairLe; infer_instance

/-- Insertion-sort insert for OD pairs. -/
def insertPair (p : String × String) :
    List (String × String) → List (String × String)
  | [] => [p]
  | q :: t => if pairLe p q then p :: q :: t else q :: insertPair p t

/-- Mirrors `od_matrix_df.groupby(['origin', 'destination']).first().index`: the
distinct OD pairs in lexicographically sorted order (groupby sorts keys). -/
def uniquePairs (od : List ODEntry) : List (String × String) :=
  ((od.map (fun r =>
    (r.origin_intersection, r.destination_intersection))).dedup).foldr insertPair []

/-- Mirrors `_precompute_od_paths`: run (cached) Dijkstra for every distinct OD pair,
threading the network (whose path cache the calls populate). -/
def precomputeGo : List (String × String) →
    List ((String × String) × (List String × WithTop ℚ)) → CorridorNetwork →
    Option (List ((String × String) × (List String × WithTop ℚ)) × CorridorNetwork)
  | [], acc, net => some (acc, net)
  | (o, d) :: rest, acc, net =>
    match CorridorNetwork.dijkstra net o d with
    | none => none
    | some ((p, dist), net') => precomputeGo rest (aset acc (o, d) (p, dist)) net'

/-- Mirrors `_reset_segment_state`: zero flows, free-flow speeds, free-flow travel
times (hours). A zero speed limit would raise `ZeroDivisionError`. -/
def resetGo : List (String × Segment) →
    Option (List (String × ℚ) × List (String × ℚ) × List (String × ℚ))
  | [] => some ([], [], [])
  | (k, s) :: t =>
    if s.speed_limit_kmh = 0 then none
    else
      match resetGo t with
      | none => none
      | some (f, sp, tt) =>
        some ((k, 0) :: f, (k, s.speed_limit_kmh) :: sp,
              (k, s.length_km / s.speed_limit_kmh) :: tt)

def reset_segment_state (net : CorridorNetwork) :
    Option (List (String × ℚ) × List (String × ℚ) × List (String × ℚ)) :=
  resetGo net.segment_data

/-- Mirrors `_bpr_congestion_curve`, as a function of its arguments (the
over-capacity branch's queue side effect on the network, line 71, is applied
at the call site in `segmentLoop`). `0.15 = 3/20`, `0.3 = 3/10`. -/
def bpr_congestion_curve (flow capacity free_speed : ℚ) : ℚ :=
  if flow ≤ 0 then free_speed
  else
    let flow_ratio := flow / max capacity 1
    if 1 < flow_ratio then max (free_speed * (3 / 10)) 5
    else max (free_speed / (1 + (3 / 20) * flow_ratio ^ 4)) 5

/-- Mirrors `_calculate_segment_capacity`: `lanes * 1200`; an unknown id yields the
`seg.get('lanes', 2)` default. -/
def calculate_segment_capacity (net : CorridorNetwork) (segment_id : String) : ℚ :=
  match aget net.segment_data segment_id with
  | some seg => (seg.lanes : ℚ) * 1200
  | none => 2 * 1200

/-- Accumulate a flow onto every segment of a path; a path segment missing
from `segment_flows` would be a `KeyError`. -/
def addFlow : List String → List (String × ℚ) → ℚ → Option (List (String × ℚ))
  | [], flows, _ => some flows
  | s :: rest, flows, vph =>
    match aget flows s with
    | none => none
    | some f => addFlow rest (aset flows s (f + vph)) vph

/-- Mirrors `_route_od_flow`: silently skip OD pairs without a precomputed path. -/
def route_od_flow (od_paths : List ((String × String) × (List String × WithTop ℚ)))
    (flows : List (String × ℚ)) (origin destination : String) (vph : ℚ) :
    Option (List (String × ℚ)) :=
  match aget od_paths (origin, destination) with
  | none => some flows
  | some (segs, _) => addFlow segs flows vph

/-- Route every OD row (lines 146-152). -/
def routeAll (od_paths : List ((String × String) × (List String × WithTop ℚ))) :
    List ODEntry → List (String × ℚ) → Option (List (String × ℚ))
  | [], flows => some flows
  | r :: rest, flows =>
    match route_od_flow od_paths flows r.origin_intersection
        r.destination_intersection r.vehicles_per_hour with
    | none => none
    | some flows' => routeAll od_paths rest flows'

/-- The per-segment loop of `run_simulation` (lines 155-172): BPR speed (with
the line-71 queue side effect on the first `segment_flows` key), travel time,
and `update_segment_state(seg, flow, speed, flow / capacity)` — the last
division raises `ZeroDivisionError` when the capacity is zero. -/
def segmentLoop (flows : List (String × ℚ)) :
    List String → List (String × ℚ) × List (String × ℚ) × CorridorNetwork →
    Option (List (String × ℚ) × List (String × ℚ) × CorridorNetwork)
  | [], acc => some acc
  | sid :: rest, (speeds, tts, net) =>
    match aget net.segment_data sid with
    | none => none
    | some seg =>
      match aget flows sid with
      | none => none
      | some flow =>
        let free_speed := seg.speed_limit_kmh
        let capacity := calculate_segment_capacity net sid
        let speed := bpr_congestion_curve flow capacity free_speed
        match (if 0 < flow ∧ 1 < flow / max capacity 1 then
                 match flows.head? with
                 | none => none
                 | some e =>
                   some { net with
                            segment_data := amod net.segment_data e.1
                              (fun s => { s with queue_length := (flow - capacity) / 60 }) }
               else some net) with
        | none => none
        | some net1 =>
          let speeds' := aset speeds sid speed
          let tts' := aset tts sid (seg.length_km / max speed 1 * 60)
          if capacity = 0 then none
          else
            segmentLoop flows rest
              (speeds', tts',
                CorridorNetwork.update_segment_state net1 sid flow speed (flow / capacity))

/-- Mirrors `_compile_segment_results` (lines 184-197); the `congestion_ratio`
division (line 193) raises when the capacity is zero. -/
def compileSegGo (net : CorridorNetwork) (flows speeds tts : List (String × ℚ)) :
    List String → Option (List (String × SegResult))
  | [] => some []
  | sid :: rest =>
    match aget net.segment_data sid, aget flows sid, aget speeds sid, aget tts sid with
    | some seg, some flow, some speed, some tt =>
      let capacity := calculate_segment_capacity net sid
      if capacity = 0 then none
      else
        match compileSegGo net flows speeds tts rest with
        | none => none
        | some others =>
          some ((sid,
            { flow_vph := flow, speed_kmh := speed, travel_time_min := tt,
              congestion_ratio := flow / capacity,
              road_name := seg.road_name, zone_id := seg.zone_id }) :: others)
    | _, _, _, _ => none

/-- Accumulation pass of `_compile_zone_results` (lines 201-216). -/
def compileZoneGo (net : CorridorNetwork) :
    List (String × SegResult) → List (String × ZoneResult) →
    Option (List (String × ZoneResult))
  | [], zones => some zones
  | (sid, r) :: rest, zones =>
    match aget net.segment_data sid with
    | none => none
    | some seg =>
      let z0 := (aget zones r.zone_id).getD
        { total_flow := 0, avg_speed := 0, avg_travel_time := 0,
          num_segments := 0, total_distance := 0 }
      compileZoneGo net rest (aset zones r.zone_id
        { total_flow := z0.total_flow + r.flow_vph
          avg_speed := z0.avg_speed + r.speed_kmh
          avg_travel_time := z0.avg_travel_time + r.travel_time_min
          num_segments := z0.num_segments + 1
          total_distance := z0.total_distance + seg.length_km })

/-- Averaging pass of `_compile_zone_results` (lines 219-223). -/
def zoneAverage (zones : List (String × ZoneResult)) : List (String × ZoneResult) :=
  zones.map (fun e =>
    if 0 < e.2.num_segments then
      (e.1, { e.2 with avg_speed := e.2.avg_speed / (e.2.num_segments : ℚ),
                       avg_travel_time := e.2.avg_travel_time / (e.2.num_segments : ℚ) })
    else e)

/-- Mirrors `_compile_od_travel_times` (lines 227-240): note the
`segment_travel_times.get(seg, 0)` default. -/
def compile_od_travel_times
    (od_paths : List ((String × String) × (List String × WithTop ℚ)))
    (tts : List (String × ℚ)) : List ODTravelTime :=
  od_paths.map (fun e =>
    { origin := e.1.1, destination := e.1.2,
      travel_time_min := (e.2.1.map (fun s => (aget tts s).getD 0)).sum,
      distance_km := e.2.2, num_segments := e.2.1.length })

/-- Mirrors `run_simulation` (lines 132-182). -/
def run_simulation (st : SimState) (scenario_name : String) :
    Option (SimResult × SimState) :=
  match reset_segment_state st.network with
  | none => none
  | some (flows0, speeds0, tts0) =>
    match routeAll st.od_paths st.network.od_matrix flows0 with
    | none => none
    | some flows =>
      match segmentLoop flows st.network.get_all_segments (speeds0, tts0, st.network) with
      | none => none
      | some (speeds, tts, net') =>
        match compileSegGo net' flows speeds tts net'.get_all_segments with
        | none => none
        | some segResults =>
          match compileZoneGo net' segResults [] with
          | none => none
          | some zonesRaw =>
            let result : SimResult :=
              { total_vehicles := (st.network.od_matrix.map
                  (fun r => r.vehicles_per_hour)).sum
                segments := segResults
                zones := zoneAverage zonesRaw
                od_travel_times := compile_od_travel_times st.od_paths tts }
            some (result,
              { network := net'
                segment_flows := flows
                segment_speeds := speeds
                segment_travel_times := tts
                od_paths := st.od_paths
                simulation_results := aset st.simulation_results scenario_name result })

/-- Mirrors `TrafficSimulator.__init__`: precompute OD paths, then reset state. -/
def init (net : CorridorNetwork) : Option SimState :=
  match precomputeGo (uniquePairs net.od_matrix) [] net with
  | none => none
  | some (paths, net') =>
    match reset_segment_state net' with
    | none => none
    | some (flows, speeds, tts) =>
      some { network := net', segment_flows := flows, segment_speeds := speeds,
             segment_travel_times := tts, od_paths := paths,
             simulation_results := [] }

/-- Mirrors `get_segment_results`: the per-segment dict of the first stored scenario;
`none` models the `{}` returned when there are no results / no such id. -/
def get_segment_results (st : SimState) (segment_id : String) : Option SegResult :=
  match st.simulation_results.head? with
  | none => none
  | some e => aget e.2.segments segment_id

end TrafficSimulator

/-! ## EmissionsModel -/

/-- The non-pollutant part of a segment-emissions dict. -/
structure SegEmissions where
  PM25 : ℚ
  NOx : ℚ
  CO : ℚ
  CO2 : ℚ
  length_km : ℚ
  daily_vehicles : ℚ
  deriving DecidableEq, Repr

/-- A zone-emissions dict. -/
structure ZoneEmissions where
  PM25 : ℚ
  NOx : ℚ
  CO : ℚ
  CO2 : ℚ
  total_vehicles : ℚ
  num_segments : Nat
  deriving DecidableEq, Repr

/-- A zone-AQI dict (lines 170-180). -/
structure ZoneAQI where
  zone_id : String
  background_aqi : ℚ
  traffic_aqi_contribution : ℚ
  total_aqi : ℚ
  pm25_grams : ℚ
  nox_grams : ℚ
  co_grams : ℚ
  co2_grams : ℚ
  total_daily_vehicles : ℚ
  deriving DecidableEq, Repr

namespace EmissionsModel

/-- Mirrors `ZONE_BACKGROUND_AQI` lookup table. -/
def ZONE_BACKGROUND_AQI : List (String × ℚ) :=
  [("Z01", 250), ("Z02", 280), ("Z03", 265), ("Z04", 245),
   ("Z05", 275), ("Z06", 290), ("Z07", 260), ("Z08", 270)]

/-- Mirrors `get_segments_in_zone` (from `corridor_network.py`). -/
def get_segments_in_zone (net : CorridorNetwork) (zone_id : String) : List String :=
  (net.segment_data.filter (fun e => e.2.zone_id = zone_id)).map Prod.fst

/-- Mirrors `compute_segment_emissions`: outer `none` models an exception
(`KeyError` on a segment missing from `segment_data`), inner `none` the `{}`
returned when the simulator has no results for the segment. Emission factors:
Car `{PM25: 0.5, NOx: 0.8, CO: 2.5, CO2: 180}`,
Truck `{PM25: 2.5, NOx: 5.0, CO: 8.0, CO2: 950}`; 70% car / 30% truck split;
daily vehicle-km = flow × 24 × length. -/
def compute_segment_emissions (st : SimState) (segment_id : String) :
    Option (Option SegEmissions) :=
  match TrafficSimulator.get_segment_results st segment_id with
  | none => some none
  | some r =>
    match aget st.network.segment_data segment_id with
    | none => none
    | some seg =>
      let flow := r.flow_vph
      let car_vkm := flow * (7 / 10) * 24 * seg.length_km
      let truck_vkm := flow * (3 / 10) * 24 * seg.length_km
      some (some
        { PM25 := car_vkm * (1 / 2) + truck_vkm * (5 / 2)
          NOx := car_vkm * (4 / 5) + truck_vkm * 5
          CO := car_vkm * (5 / 2) + truck_vkm * 8
          CO2 := car_vkm * 180 + truck_vkm * 950
          length_km := seg.length_km
          daily_vehicles := flow * 24 })

/-- Accumulation loop of `compute_zone_emissions` (the `if seg_emissions:`
guard skips segments whose result was `{}`). -/
def zoneEmissionsGo (st : SimState) :
    List String → ZoneEmissions → Option ZoneEmissions
  | [], acc => some acc
  | sid :: rest, acc =>
    match compute_segment_emissions st sid with
    | none => none
    | some none => zoneEmissionsGo st rest acc
    | some (some e) =>
      zoneEmissionsGo st rest
        { PM25 := acc.PM25 + e.PM25, NOx := acc.NOx + e.NOx,
          CO := acc.CO + e.CO, CO2 := acc.CO2 + e.CO2,
          total_vehicles := acc.total_vehicles + e.daily_vehicles,
          num_segments := acc.num_segments }

/-- Mirrors `compute_zone_emissions`. -/
def compute_zone_emissions (st : SimState) (zone_id : String) :
    Option ZoneEmissions :=
  let segs := get_segments_in_zone st.network zone_id
  zoneEmissionsGo st segs
    { PM25 := 0, NOx := 0, CO := 0, CO2 := 0, total_vehicles := 0,
      num_segments := segs.length }

/-- Mirrors `estimate_aqi_from_emissions`: concentration
`= (pm25 × 1000 / (area × 10⁶)) × 10⁶ × 0.6` µg/m³, mapped through the
piecewise AQI breakpoints and capped at 500. (The only caller passes the
default area 5, which is nonzero, so the division is total.) -/
def estimate_aqi_from_emissions (pm25_grams_per_day zone_area_sqkm : ℚ) : ℚ :=
  let emissions_mg := pm25_grams_per_day * 1000
  let zone_area_m2 := zone_area_sqkm * 1000000
  let c := emissions_mg / zone_area_m2 * 1000000 * (6 / 10)
  let aqi :=
    if c ≤ 30 then c / 30 * 50
    else if c ≤ 60 then 50 + (c - 30) / 30 * 50
    else if c ≤ 90 then 100 + (c - 60) / 30 * 100
    else if c ≤ 120 then 200 + (c - 90) / 30 * 100
    else 300 + min ((c - 120) / 120 * 200) 200
  min aqi 500

/-- Mirrors `compute_zone_aqi` (lines 147-180): traffic AQI from the zone's PM2.5
(divided by 1000, default area), total = background + 0.15 × traffic,
capped at 500. -/
def compute_zone_aqi (st : SimState) (zone_id : String) : Option ZoneAQI :=
  match compute_zone_emissions st zone_id with
  | none => none
  | some ze =>
    let traffic_aqi := estimate_aqi_from_emissions (ze.PM25 / 1000) 5
    let background_aqi := (aget ZONE_BACKGROUND_AQI zone_id).getD 250
    some
      { zone_id := zone_id
        background_aqi := background_aqi
        traffic_aqi_contribution := traffic_aqi * (15 / 100)
        total_aqi := min (background_aqi + traffic_aqi * (15 / 100)) 500
        pm25_grams := ze.PM25
        nox_grams := ze.NOx
        co_grams := ze.CO
        co2_grams := ze.CO2
        total_daily_vehicles := ze.total_vehicles }

end EmissionsModel

/-! ## InterventionEngine -/

/-- One `active_interventions` record (the heterogeneous dicts built by the
five intervention constructors). -/
inductive IRecord
  | addLanes (segments : List String) (num_lanes : Int)
      (previous_lanes : List (String × Int))
  | signalTiming (intersections : List String)
      (previous_timings : List (String × (Int × Int)))
  | segmentClosure (segments : List String)
  | truckBan (segments : List String) (time_window : Option (Int × Int))
  | trafficReroute (from_segment : String) (to_segments : List String)
      (percentage : ℚ)
  deriving DecidableEq, Repr

/-- The engine's state: the shared network plus its intervention records
(`baseline_state` is the `_capture_state()` snapshot taken at construction;
it is never read back by any modelled operation). -/
structure EngineState where
  network : CorridorNetwork
  active_interventions : List (String × IRecord)
  baseline_state : List (String × (Int × ℚ))
  deriving DecidableEq, Repr

namespace InterventionEngine

/-- Mirrors `_capture_state`: lanes and speed limit per segment. -/
def capture_state (net : CorridorNetwork) : List (String × (Int × ℚ)) :=
  net.segment_data.map (fun e => (e.1, (e.2.lanes, e.2.speed_limit_kmh)))

/-- Mirrors `InterventionEngine.__init__`. -/
def init (net : CorridorNetwork) : EngineState :=
  { network := net, active_interventions := [], baseline_state := capture_state net }

/-- Loop body of `add_lanes`: for each listed id that exists, record the
current lane count into `previous_lanes` (overwriting on duplicates, as the
dict assignment does) and add `num_lanes`. -/
def addLanesGo (num_lanes : Int) :
    List String → CorridorNetwork → List (String × Int) →
    CorridorNetwork × List (String × Int)
  | [], net, prev => (net, prev)
  | sid :: rest, net, prev =>
    match aget net.segment_data sid with
    | none => addLanesGo num_lanes rest net prev
    | some seg =>
      addLanesGo num_lanes rest
        { net with
            segment_data := amod net.segment_data sid
              (fun s => { s with lanes := s.lanes + num_lanes }) }
        (aset prev sid seg.lanes)

/-- Mirrors `add_lanes`: id `add_lanes_<len(active)>`; the record is stored with the
`previous_lanes` accumulated by the loop (the in-place record mutation of the
source is not observable mid-loop). Returns the new state and the
intervention id of the result dict. -/
def add_lanes (st : EngineState) (segment_ids : List String) (num_lanes : Int) :
    EngineState × String :=
  let iid := "add_lanes_" ++ toString st.active_interventions.length
  let (net', prev) := addLanesGo num_lanes segment_ids st.network []
  ({ st with
      network := net'
      active_interventions := aset st.active_interventions iid
        (IRecord.addLanes segment_ids num_lanes prev) }, iid)

/-- Loop body of `modify_signal_timing`. -/
def signalGo (new_cycle_time new_green_time : Option Int) :
    List String → CorridorNetwork → List (String × (Int × Int)) →
    CorridorNetwork × List (String × (Int × Int))
  | [], net, prev => (net, prev)
  | iid :: rest, net, prev =>
    match aget net.intersection_data iid with
    | none => signalGo new_cycle_time new_green_time rest net prev
    | some i =>
      let i1 := match new_cycle_time with
        | none => i
        | some c => { i with cycle_time_sec := c }
      let i2 := match new_green_time with
        | none => i1
        | some g => { i1 with green_time_sec := g }
      signalGo new_cycle_time new_green_time rest
        { net with intersection_data := aset net.intersection_data iid i2 }
        (aset prev iid (i.cycle_time_sec, i.green_time_sec))

/-- Mirrors `modify_signal_timing`: id `signal_modify_<len(active)>`. -/
def modify_signal_timing (st : EngineState) (intersection_ids : List String)
    (new_cycle_time new_green_time : Option Int) : EngineState × String :=
  let iid := "signal_modify_" ++ toString st.active_interventions.length
  let (net', prev) := signalGo new_cycle_time new_green_time intersection_ids
    st.network []
  ({ st with
      network := net'
      active_interventions := aset st.active_interventions iid
        (IRecord.signalTiming intersection_ids prev) }, iid)

/-- Mirrors `InterventionEngine.close_segment`: id `close_segment_<len(active)>`;
sets the lane count of each listed (existing) segment to zero. The record
stores only the id list — no previous lane counts. -/
def close_segment (st : EngineState) (segment_ids : List String) :
    EngineState × String :=
  let iid := "close_segment_" ++ toString st.active_interventions.length
  let net' := segment_ids.foldl
    (fun n sid =>
      { n with
          segment_data := amod n.segment_data sid (fun s => { s with lanes := 0 }) })
    st.network
  ({ st with
      network := net'
      active_interventions := aset st.active_interventions iid
        (IRecord.segmentClosure segment_ids) }, iid)

/-- Mirrors `truck_ban`: metadata-only record. -/
def truck_ban (st : EngineState) (segment_ids : List String)
    (time_window : Option (Int × Int)) : EngineState × String :=
  let iid := "truck_ban_" ++ toString st.active_interventions.length
  ({ st with
      active_interventions := aset st.active_interventions iid
        (IRecord.truckBan segment_ids time_window) }, iid)

/-- Mirrors `reroute_traffic`: metadata-only record. -/
def reroute_traffic (st : EngineState) (from_segment : String)
    (to_segments : List String) (percentage : ℚ) : EngineState × String :=
  let iid := "reroute_" ++ toString st.active_interventions.length
  ({ st with
      active_interventions := aset st.active_interventions iid
        (IRecord.trafficReroute from_segment to_segments percentage) }, iid)

/-- Result of `rollback_intervention`: the `{'error': ...}` dict or the
`{'intervention_id': ..., 'status': 'rolled_back'}` dict. -/
inductive RollbackRes
  | notFound (intervention_id : String)
  | rolledBack (intervention_id : String)
  deriving DecidableEq, Repr

/-- Mirrors `rollback_intervention` (lines 249-277). Only the `add_lanes` and
`signal_timing` record types restore anything; the `signal_timing` branch
(`intersection_data[id].update(prev_timings)`) writes the snapshot under the
keys `cycle_time` / `green_time` — not `cycle_time_sec` / `green_time_sec` —
so the effective timings stay mutated. Every other type (including
`segment_closure`) restores nothing. The record is deleted in all cases.
The Python id lookups inside the restore loops always succeed because
segments and intersections are never deleted, so the update-if-present
`amod` is exact. -/
def rollback_intervention (st : EngineState) (intervention_id : String) :
    EngineState × RollbackRes :=
  match aget st.active_interventions intervention_id with
  | none => (st, RollbackRes.notFound intervention_id)
  | some record =>
    let net' := match record with
      | IRecord.addLanes _ _ prev =>
        prev.foldl
          (fun n p =>
            { n with
                segment_data := amod n.segment_data p.1
                  (fun s => { s with lanes := p.2 }) })
          st.network
      | IRecord.signalTiming _ prev =>
        prev.foldl
          (fun n p =>
            { n with
                intersection_data := amod n.intersection_data p.1
                  (fun i => { i with cycle_time := some p.2.1,
                                     green_time := some p.2.2 }) })
          st.network
      | _ => st.network
    ({ st with
        network := net'
        active_interventions := adel st.active_interventions intervention_id },
      RollbackRes.rolledBack intervention_id)

/-- One item of the `apply_multiple_interventions` input: a Python dict,
each field `none` when the key is absent. -/
structure InterventionItem where
  itype : Option String
  segment_ids : Option (List String)
  num_lanes : Option Int
  intersection_ids : Option (List String)
  cycle_time : Option Int
  green_time : Option Int
  time_window : Option (Int × Int)
  from_segment : Option String
  to_segments : Option (List String)
  percentage : Option ℚ
  deriving DecidableEq, Repr

/-- An entry of the `interventions_applied` result list: a successful
operation's result dict (id and type) or the
`{'error': 'Unknown intervention type: ...'}` dict. -/
inductive AResult
  | applied (intervention_id : String) (rtype : String)
  | unknownType (itype : Option String)
  deriving DecidableEq, Repr

/-- Dispatch for one batch item (lines 211-241). A `none` result is the
uncaught `KeyError` raised by `interv['...']` on a malformed item, which
aborts the whole batch. -/
def apply_one (st : EngineState) (item : InterventionItem) :
    Option (EngineState × AResult) :=
  match item.itype with
  | some "add_lanes" =>
    match item.segment_ids with
    | none => none
    | some ids =>
      let (st', iid) := add_lanes st ids (item.num_lanes.getD 1)
      some (st', AResult.applied iid "add_lanes")
  | some "signal_timing" =>
    match item.intersection_ids with
    | none => none
    | some ids =>
      let (st', iid) := modify_signal_timing st ids item.cycle_time item.green_time
      some (st', AResult.applied iid "signal_timing")
  | some "segment_closure" =>
    match item.segment_ids with
    | none => none
    | some ids =>
      let (st', iid) := close_segment st ids
      some (st', AResult.applied iid "segment_closure")
  | some "truck_ban" =>
    match item.segment_ids with
    | none => none
    | some ids =>
      let (st', iid) := truck_ban st ids item.time_window
      some (st', AResult.applied iid "truck_ban")
  | some "reroute" =>
    match item.from_segment with
    | none => none
    | some fs =>
      match item.to_segments with
      | none => none
      | some ts =>
        let (st', iid) := reroute_traffic st fs ts (item.percentage.getD 100)
        some (st', AResult.applied iid "reroute")
  | t => some (st, AResult.unknownType t)

/-- Mirrors `apply_multiple_interventions`: process the items in order; an uncaught
exception anywhere discards the whole call. -/
def apply_multiple_interventions (st : EngineState) :
    List InterventionItem → Option (List AResult × EngineState)
  | [] => some ([], st)
  | item :: rest =>
    match apply_one st item with
    | none => none
    | some (st', r) =>
      match apply_multiple_interventions st' rest with
      | none => none
      | some (rs, st'') => some (r :: rs, st'')

end InterventionEngine

/-! ## Specification predicates for the routing claims -/

namespace CorridorNetwork

/-- The directed edge relation of the adjacency structure. -/
def HasEdge (net : CorridorNetwork) (b s c : String) : Prop :=
  ∃ adj, aget net.graph b = some adj ∧ (c, s) ∈ adj

/-- Graph reachability along directed edges. -/
inductive Reach (net : CorridorNetwork) : String → String → Prop
  | refl (a : String) : Reach net a a
  | tail {a b c : String} (s : String) (h : Reach net a b)
      (hedge : HasEdge net b s c) : Reach net a c

/-- The segment list forms a connected directed walk from `o` to `d`. -/
def IsWalk (net : CorridorNetwork) : String → String → List String → Prop
  | o, d, [] => o = d
  | o, d, s :: rest =>
    ∃ seg, aget net.segment_data s = some seg ∧ seg.fromI = o ∧
      IsWalk net seg.toI d rest

/-- Total length of a segment-id path (a missing id counts 0; the walks the
theorems produce only mention existing ids). -/
def pathLen (net : CorridorNetwork) (p : List String) : ℚ :=
  (p.map (fun s => ((aget net.segment_data s).map Segment.length_km).getD 0)).sum

/-- The adjacency entry `(c, s)` out of `u` is labelled by a segment that
actually runs from `u` to `c`. -/
def segMatchesB (net : CorridorNetwork) (u : String) (p : String × String) : Bool :=
  match aget net.segment_data p.2 with
  | some seg => decide (seg.fromI = u) && decide (seg.toI = p.1)
  | none => false

/-- Well-formed adjacency: every edge's segment id resolves and its
endpoints agree with the adjacency entry (true of every built network with
distinct segment ids). -/
def WFb (net : CorridorNetwork) : Bool :=
  net.graph.all (fun e => e.2.all (fun p => segMatchesB net e.1 p))

/-- Every segment has a strictly positive length. -/
def PosLenb (net : CorridorNetwork) : Bool :=
  net.segment_data.all (fun e => decide (0 < e.2.length_km))

/-- The Dijkstra-loop invariant, over the set `F` of finalised (validly
popped and relaxed) nodes; the `final_closure` field is maintained for the
sub-list `G` of nodes whose edges have all been relaxed (`G = F` except in
the middle of a relaxation pass). -/
structure DInv (net : CorridorNetwork) (o dst : String) (F G : List String)
    (st : DState) : Prop where
  dist_nonneg : ∀ v q, aget st.dist v = some q → 0 ≤ q
  pq_nonneg : ∀ e ∈ st.pq, (0 : ℚ) ≤ e.1
  dist_origin : aget st.dist o = some 0
  parent_origin : aget st.parent o = some none
  pseg_origin : aget st.parentSeg o = some none
  pq_bound : ∀ e ∈ st.pq, ∃ q, aget st.dist e.2 = some q ∧ q ≤ e.1
  pq_unique : ∀ v q, aget st.dist v = some q → st.pq.count (q, v) ≤ 1
  final_le : ∀ v ∈ F, ∃ q, aget st.dist v = some q ∧ ∀ e ∈ st.pq, q ≤ e.1
  final_stale : ∀ v ∈ F, ∀ e ∈ st.pq, e.2 = v →
    ∃ q, aget st.dist v = some q ∧ q < e.1
  in_pq_or_final : ∀ v q, aget st.dist v = some q → (q, v) ∈ st.pq ∨ v ∈ F
  parent_chain : ∀ v q, aget st.dist v = some q → v ≠ o →
    ∃ u s seg qu, aget st.parent v = some (some u) ∧
      aget st.parentSeg v = some (some s) ∧
      aget st.dist u = some qu ∧
      aget net.segment_data s = some seg ∧ seg.fromI = u ∧ seg.toI = v ∧
      q = qu + seg.length_km ∧ qu < q ∧ u ∈ F
  final_closure : ∀ u ∈ G, ∀ adj, aget net.graph u = some adj →
    ∀ p ∈ adj, (aget st.dist p.1).isSome
  reach_dom : ∀ v q, aget st.dist v = some q → Reach net o v
  dst_not_final : dst ∉ F
  len_dist_parent : st.dist.length = st.parent.length
  dom_dist_parent : ∀ v, (aget st.dist v).isSome ↔ (aget st.parent v).isSome

/-- Total out-degree of the nodes not yet finalised: the potential number of
future pushes. -/
def outSum (net : CorridorNetwork) (F : List String) : Nat :=
  ((net.graph.filter (fun e => decide (e.1 ∉ F))).map (fun e => e.2.length)).sum

end CorridorNetwork

/-! ## Static projection of the simulator (for the determinism claim)

`run_simulation` reads only *static* segment attributes (length, lanes,
speed limit, names) plus the OD table and the precomputed OD paths, while
its writes touch only *dynamic* attributes; the `...S` clones below are the
same computation expressed over the static projection, which the
equivalence lemmas connect to the real definitions. -/

/-- The static (never-written-by-the-simulator) attributes of a segment. -/
structure SegStatic where
  fromI : String
  toI : String
  length_km : ℚ
  lanes : Int
  speed_limit_kmh : ℚ
  is_one_way : Bool
  zone_id : String
  road_type : String
  road_name : String
  deriving DecidableEq, Repr

/-- Project a segment onto its static attributes. -/
def Segment.statics (s : Segment) : SegStatic :=
  { fromI := s.fromI, toI := s.toI, length_km := s.length_km, lanes := s.lanes,
    speed_limit_kmh := s.speed_limit_kmh, is_one_way := s.is_one_way,
    zone_id := s.zone_id, road_type := s.road_type, road_name := s.road_name }

/-- Static projection of a segment dict. -/
def staticmap (sd : List (String × Segment)) : List (String × SegStatic) :=
  sd.map (fun e => (e.1, e.2.statics))

namespace TrafficSimulator

/-- Mirrors `resetGo` over the static projection. -/
def resetGoS : List (String × SegStatic) →
    Option (List (String × ℚ) × List (String × ℚ) × List (String × ℚ))
  | [] => some ([], [], [])
  | (k, s) :: t =>
    if s.speed_limit_kmh = 0 then none
    else
      match resetGoS t with
      | none => none
      | some (f, sp, tt) =>
        some ((k, 0) :: f, (k, s.speed_limit_kmh) :: sp,
              (k, s.length_km / s.speed_limit_kmh) :: tt)

/-- Mirrors `_calculate_segment_capacity` over the static projection. -/
def capacityS (sd : List (String × SegStatic)) (segment_id : String) : ℚ :=
  match aget sd segment_id with
  | some seg => (seg.lanes : ℚ) * 1200
  | none => 2 * 1200

/-- Mirrors `segmentLoop` over the static projection (dropping the network writes,
which touch only dynamic attributes). -/
def segmentLoopS (sd : List (String × SegStatic)) (flows : List (String × ℚ)) :
    List String → List (String × ℚ) × List (String × ℚ) →
    Option (List (String × ℚ) × List (String × ℚ))
  | [], acc => some acc
  | sid :: rest, (speeds, tts) =>
    match aget sd sid with
    | none => none
    | some seg =>
      match aget flows sid with
      | none => none
      | some flow =>
        let capacity := capacityS sd sid
        let speed := bpr_congestion_curve flow capacity seg.speed_limit_kmh
        match (if 0 < flow ∧ 1 < flow / max capacity 1 then
                 match flows.head? with
                 | none => none
                 | some _ => some ()
               else some ()) with
        | none => none
        | some _ =>
          if capacity = 0 then none
          else
            segmentLoopS sd flows rest
              (aset speeds sid speed, aset tts sid (seg.length_km / max speed 1 * 60))

/-- Mirrors `compileSegGo` over the static projection. -/
def compileSegGoS (sd : List (String × SegStatic)) (flows speeds tts : List (String × ℚ)) :
    List String → Option (List (String × SegResult))
  | [] => some []
  | sid :: rest =>
    match aget sd sid, aget flows sid, aget speeds sid, aget tts sid with
    | some seg, some flow, some speed, some tt =>
      let capacity := capacityS sd sid
      if capacity = 0 then none
      else
        match compileSegGoS sd flows speeds tts rest with
        | none => none
        | some others =>
          some ((sid,
            { flow_vph := flow, speed_kmh := speed, travel_time_min := tt,
              congestion_ratio := flow / capacity,
              road_name := seg.road_name, zone_id := seg.zone_id }) :: others)
    | _, _, _, _ => none

/-- Mirrors `compileZoneGo` over the static projection. -/
def compileZoneGoS (sd : List (String × SegStatic)) :
    List (String × SegResult) → List (String × ZoneResult) →
    Option (List (String × ZoneResult))
  | [], zones => some zones
  | (sid, r) :: rest, zones =>
    match aget sd sid with
    | none => none
    | some seg =>
      let z0 := (aget zones r.zone_id).getD
        { total_flow := 0, avg_speed := 0, avg_travel_time := 0,
          num_segments := 0, total_distance := 0 }
      compileZoneGoS sd rest (aset zones r.zone_id
        { total_flow := z0.total_flow + r.flow_vph
          avg_speed := z0.avg_speed + r.speed_kmh
          avg_travel_time := z0.avg_travel_time + r.travel_time_min
          num_segments := z0.num_segments + 1
          total_distance := z0.total_distance + seg.length_km })

/-- Mirrors `run_simulation`'s returned result, as a function of the static view
only. -/
def run_simulationS (od : List ODEntry)
    (paths : List ((String × String) × (List String × WithTop ℚ)))
    (sd : List (String × SegStatic)) : Option SimResult :=
  match resetGoS sd with
  | none => none
  | some (flows0, speeds0, tts0) =>
    match routeAll paths od flows0 with
    | none => none
    | some flows =>
      match segmentLoopS sd flows (sd.map Prod.fst) (speeds0, tts0) with
      | none => none
      | some (speeds, tts) =>
        match compileSegGoS sd flows speeds tts (sd.map Prod.fst) with
        | none => none
        | some segResults =>
          match compileZoneGoS sd segResults [] with
          | none => none
          | some zonesRaw =>
            some
              { total_vehicles := (od.map (fun r => r.vehicles_per_hour)).sum
                segments := segResults
                zones := zoneAverage zonesRaw
                od_travel_times := compile_od_travel_times paths tts }

end TrafficSimulator

namespace InterventionEngine

/-- The item carries every key its type's handler reads with `[...]`
(unrecognised or absent types never read a key, so they are fine). -/
def itemOK (it : InterventionItem) : Bool :=
  match it.itype with
  | some "add_lanes" => it.segment_ids.isSome
  | some "signal_timing" => it.intersection_ids.isSome
  | some "segment_closure" => it.segment_ids.isSome
  | some "truck_ban" => it.segment_ids.isSome
  | some "reroute" => it.from_segment.isSome && it.to_segments.isSome
  | _ => true

/-- The five intervention types `apply_multiple_interventions` dispatches on. -/
def knownTypeB (t : Option String) : Bool :=
  match t with
  | some "add_lanes" => true
  | some "signal_timing" => true
  | some "segment_closure" => true
  | some "truck_ban" => true
  | some "reroute" => true
  | _ => false

end InterventionEngine

/-! ## Concrete example inputs used by the counterexamples and witnesses -/

/-- Two-segment line A→B→C, 2 km / 2 lanes / 50 km/h each (the spec §8
scenario). -/
def lineSegs : List SegmentRow :=
  [{ segment_id := "S1", from_intersection := "A", to_intersection := "B",
     length_km := 2, lanes := 2, speed_limit_kmh := 50, is_one_way := true,
     zone_id := "Z01", road_type := "arterial", road_name := "R1" },
   { segment_id := "S2", from_intersection := "B", to_intersection := "C",
     length_km := 2, lanes := 2, speed_limit_kmh := 50, is_one_way := true,
     zone_id := "Z01", road_type := "arterial", road_name := "R2" }]

def lineInts : List IntersectionRow :=
  [{ intersection_id := "A", latitude := 0, longitude := 0, has_signal := false,
     cycle_time_sec := 120, green_time_sec := 50, road_name := "R1", zone_id := "Z01" },
   { intersection_id := "B", latitude := 0, longitude := 0, has_signal := false,
     cycle_time_sec := 120, green_time_sec := 50, road_name := "R1", zone_id := "Z01" },
   { intersection_id := "C", latitude := 0, longitude := 0, has_signal := false,
     cycle_time_sec := 120, green_time_sec := 50, road_name := "R2", zone_id := "Z01" }]

/-- One OD demand of 2000 veh/h end-to-end. -/
def lineOD : List ODEntry :=
  [{ origin_intersection := "A", destination_intersection := "C",
     vehicles_per_hour := 2000, vehicle_type := "Car" }]

def lineNet : CorridorNetwork := CorridorNetwork.build lineSegs lineInts lineOD

/-- Triangle network: A→B→C (1 km each) and a direct A→C of 3 km, so the
shortest A→C route is S1,S2 but S3 gives an alternative when one is
closed. -/
def triSegs : List SegmentRow :=
  [{ segment_id := "S1", from_intersection := "A", to_intersection := "B",
     length_km := 1, lanes := 2, speed_limit_kmh := 50, is_one_way := true,
     zone_id := "Z01", road_type := "arterial", road_name := "R1" },
   { segment_id := "S2", from_intersection := "B", to_intersection := "C",
     length_km := 1, lanes := 2, speed_limit_kmh := 50, is_one_way := true,
     zone_id := "Z01", road_type := "arterial", road_name := "R1" },
   { segment_id := "S3", from_intersection := "A", to_intersection := "C",
     length_km := 3, lanes := 2, speed_limit_kmh := 50, is_one_way := true,
     zone_id := "Z01", road_type := "arterial", road_name := "R2" }]

def triOD : List ODEntry :=
  [{ origin_intersection := "A", destination_intersection := "C",
     vehicles_per_hour := 1000, vehicle_type := "Car" }]

def triNet : CorridorNetwork := CorridorNetwork.build triSegs lineInts triOD

/-- The triangle simulator, built over the triangle network. -/
def triSim : Option SimState := TrafficSimulator.init triNet

/-- The simulator state after the network mutation
`close_segment("S2")`, with the simulator's `od_paths` untouched, exactly as
in the source (the simulator never refreshes them). -/
def triSimClosed : Option SimState :=
  triSim.map (fun st =>
    { st with network := (CorridorNetwork.close_segment st.network "S2").1 })

/-- The triangle network with a populated shortest-path cache. -/
def triNetCached : CorridorNetwork :=
  { triNet with precomputed_paths := [(("A", "C"), (["S1", "S2"], (2 : WithTop ℚ)))] }

/-- Intervention engine over the triangle network. -/
def triEngine : EngineState := InterventionEngine.init triNet

/-- Engine state and result after `close_segment(['S2'])`. -/
def triEngineClosed : EngineState × String :=
  InterventionEngine.close_segment triEngine ["S2"]

/-- Engine state and result after rolling that closure back. -/
def triEngineRolled : EngineState × InterventionEngine.RollbackRes :=
  InterventionEngine.rollback_intervention triEngineClosed.1 triEngineClosed.2

/-- Simulator state over the triangle network after the engine closed `S2`
(zero lanes), as a fresh engine + existing simulator sharing one network. -/
def triSimEngineClosed : Option SimState :=
  triSim.map (fun st =>
    { st with network :=
        (InterventionEngine.close_segment (InterventionEngine.init st.network)
          ["S2"]).1.network })

/-- A malformed batch item: `type` is `add_lanes` but the `segment_ids` key
is absent, so `interv['segment_ids']` raises `KeyError`. -/
def itemMalformed : InterventionEngine.InterventionItem :=
  { itype := some "add_lanes", segment_ids := none, num_lanes := none,
    intersection_ids := none, cycle_time := none, green_time := none,
    time_window := none, from_segment := none, to_segments := none,
    percentage := none }

/-- A well-formed `truck_ban` batch item. -/
def itemBan : InterventionEngine.InterventionItem :=
  { itype := some "truck_ban", segment_ids := some ["S1"], num_lanes := none,
    intersection_ids := none, cycle_time := none, green_time := none,
    time_window := none, from_segment := none, to_segments := none,
    percentage := none }

/-- A simulator state holding one stored scenario result, used to exercise
the emissions claims on concrete data. -/
def aqiExampleState : SimState :=
  { network := lineNet
    segment_flows := [("S1", 2000), ("S2", 2000)]
    segment_speeds := []
    segment_travel_times := []
    od_paths := []
    simulation_results :=
      [("baseline",
        { total_vehicles := 2000
          segments :=
            [("S1", { flow_vph := 2000, speed_kmh := 86400 / 1853,
                      travel_time_min := 1853 / 720, congestion_ratio := 5 / 6,
                      road_name := "R1", zone_id := "Z01" }),
             ("S2", { flow_vph := 2000, speed_kmh := 86400 / 1853,
                      travel_time_min := 1853 / 720, congestion_ratio := 5 / 6,
                      road_name := "R2", zone_id := "Z01" })]
          zones := []
          od_travel_times := [] })] }

/-- The zone-AQI dict `compute_zone_aqi` produces for `aqiExampleState` and
zone `Z01`. -/
def aqiExampleResult : ZoneAQI :=
  { zone_id := "Z01", background_aqi := 250, traffic_aqi_contribution := 75,
    total_aqi := 325, pm25_grams := 211200, nox_grams := 395520,
    co_grams := 796800, co2_grams := 78912000, total_daily_vehicles := 96000 }

/-- A one-segment network with an empty OD table, for the determinism
witness. -/
def soloSegs : List SegmentRow :=
  [{ segment_id := "S1", from_intersection := "A", to_intersection := "B",
     length_km := 2, lanes := 2, speed_limit_kmh := 50, is_one_way := true,
     zone_id := "Z01", road_type := "arterial", road_name := "R1" }]

def soloNet : CorridorNetwork :=
  CorridorNetwork.build soloSegs
    [{ intersection_id := "A", latitude := 0, longitude := 0, has_signal := false,
       cycle_time_sec := 120, green_time_sec := 50, road_name := "R1",
       zone_id := "Z01" },
     { intersection_id := "B", latitude := 0, longitude := 0, has_signal := false,
       cycle_time_sec := 120, green_time_sec := 50, road_name := "R1",
       zone_id := "Z01" }] []

/-- The simulator state `TrafficSimulator.init soloNet` produces. -/
def soloSim : SimState :=
  { network := soloNet, segment_flows := [("S1", 0)],
    segment_speeds := [("S1", 50)], segment_travel_times := [("S1", 1 / 25)],
    od_paths := [], simulation_results := [] }

/-- The result of running the solo scenario. -/
def soloResult : SimResult :=
  { total_vehicles := 0
    segments :=
      [("S1",
        { flow_vph := 0, speed_kmh := 50, travel_time_min := 12 / 5,
          congestion_ratio := 0, road_name := "R1", zone_id := "Z01" })]
    zones :=
      [("Z01",
        { total_flow := 0, avg_speed := 50, avg_travel_time := 12 / 5,
          num_segments := 1, total_distance := 2 })]
    od_travel_times := [] }

/-- The simulator state after the first solo run. -/
def soloAfter : SimState :=
  { soloSim with
      segment_travel_times := [("S1", 12 / 5)]
      simulation_results := [("baseline", soloResult)] }

/-! ## Association-list lemmas -/

theorem aget_mem {κ α : Type} [DecidableEq κ] {k : κ} {v : α} :
    ∀ {l : List (κ × α)}, aget l k = some v → (k, v) ∈ l
  | [], h => by simp [aget] at h
  | (a, b) :: t, h => by
    by_cases hak : a = k
    · subst hak
      simp [aget] at h
      subst h
      exact List.mem_cons_self _ _
    · simp only [aget, if_neg hak] at h
      exact List.mem_cons_of_mem _ (aget_mem h)

theorem aget_aset_self {κ α : Type} [DecidableEq κ] (k : κ) (v : α) :
    ∀ (l : List (κ × α)), aget (aset l k v) k = some v
  | [] => by simp [aget, aset]
  | (a, b) :: t => by
    by_cases hak : a = k
    · simp [aset, hak, aget]
    · simp [aset, hak, aget, aget_aset_self k v t]

theorem aget_aset_ne {κ α : Type} [DecidableEq κ] {k k' : κ} (hne : k' ≠ k) (v : α) :
    ∀ (l : List (κ × α)), aget (aset l k v) k' = aget l k'
  | [] => by
    have hkk : ¬ (k = k') := fun h => hne h.symm
    simp [aget, aset, hkk]
  | (a, b) :: t => by
    by_cases hak : a = k
    · subst hak
      have hkk : ¬ (a = k') := fun h => hne h.symm
      simp [aset, aget, hkk]
    · by_cases hak' : a = k'
      · simp [aset, hak, aget, hak', hne]
      · simp [aset, hak, aget, hak', aget_aset_ne hne v t]

theorem aset_length {κ α : Type} [DecidableEq κ] (k : κ) (v : α) :
    ∀ (l : List (κ × α)),
      (aset l k v).length = if (aget l k).isSome then l.length else l.length + 1
  | [] => by simp [aget, aset]
  | (a, b) :: t => by
    by_cases hak : a = k
    · simp [aset, hak, aget]
    · simp [aset, hak, aget, aset_length k v t]
      split <;> simp

theorem aget_amod_self {κ α : Type} [DecidableEq κ] (k : κ) (f : α → α) :
    ∀ (l : List (κ × α)), aget (amod l k f) k = (aget l k).map f
  | [] => by simp [aget, amod]
  | (a, b) :: t => by
    by_cases hak : a = k
    · simp [amod, hak, aget]
    · simp [amod, hak, aget, aget_amod_self k f t]

theorem aget_amod_ne {κ α : Type} [DecidableEq κ] {k k' : κ} (hne : k' ≠ k) (f : α → α) :
    ∀ (l : List (κ × α)), aget (amod l k f) k' = aget l k'
  | [] => by simp [aget, amod]
  | (a, b) :: t => by
    by_cases hak : a = k
    · subst hak
      have hkk : ¬ (a = k') := fun h => hne h.symm
      simp [amod, aget, hkk]
    · by_cases hak' : a = k'
      · simp [amod, hak, aget, hak', hne]
      · simp [amod, hak, aget, hak', aget_amod_ne hne f t]

/-! ## Claim C2 — cache invalidation by the network mutations -/

/-- C2 (counterexample): `update_signal_timing` succeeds on a network whose
shortest-path cache is populated and leaves the cache exactly as it was, so
the claim that all four mutations leave `precomputed_paths` empty is false. -/
theorem update_signal_timing_keeps_stale_cache :
    (triNetCached.update_signal_timing "A" 10).2 = true ∧
    (triNetCached.update_signal_timing "A" 10).1.precomputed_paths =
      [(("A", "C"), (["S1", "S2"], (2 : WithTop ℚ)))] := by
  decide

/-- C2 (amended): `update_segment_lanes`, `close_segment` and
`reopen_segment` each leave `precomputed_paths` empty whenever they return
success; `update_signal_timing` does not touch the cache. -/
theorem topology_mutations_clear_cache (net : CorridorNetwork) (sid : String)
    (n : Int) :
    ((net.update_segment_lanes sid n).2 = true →
      (net.update_segment_lanes sid n).1.precomputed_paths = []) ∧
    ((net.close_segment sid).2 = true →
      (net.close_segment sid).1.precomputed_paths = []) ∧
    ((net.reopen_segment sid).2 = true →
      (net.reopen_segment sid).1.precomputed_paths = []) := by
  refine ⟨?_, ?_, ?_⟩
  · unfold CorridorNetwork.update_segment_lanes
    split <;> simp
  · unfold CorridorNetwork.close_segment
    split <;> simp
  · unfold CorridorNetwork.reopen_segment
    split
    · simp
    · split <;> simp

/-- C2 (witness): the three cache-clearing mutations applied to concrete
networks on which they succeed. -/
theorem topology_mutations_clear_cache_witness :
    (triNetCached.update_segment_lanes "S1" 3).1.precomputed_paths = [] ∧
    (triNetCached.close_segment "S1").1.precomputed_paths = [] ∧
    (((triNet.close_segment "S1").1).reopen_segment "S1").1.precomputed_paths = [] :=
  ⟨(topology_mutations_clear_cache triNetCached "S1" 3).1 (by decide),
   (topology_mutations_clear_cache triNetCached "S1" 3).2.1 (by decide),
   (topology_mutations_clear_cache (triNet.close_segment "S1").1 "S1" 3).2.2
     (by decide)⟩

/-! ## Claim C3 — intervention records and rollback -/

/-- C3: closing `S2` (2 lanes) through the intervention engine stores a
record with no lane snapshot, and rolling it back deletes the record while
leaving the lane count at 0 instead of restoring 2 — the code does not
invert segment closures. -/
theorem closure_rollback_restores_nothing :
    (aget triNet.segment_data "S2").map Segment.lanes = some 2 ∧
    triEngineClosed.2 = "close_segment_0" ∧
    (aget triEngineClosed.1.network.segment_data "S2").map Segment.lanes =
      some 0 ∧
    triEngineRolled.2 =
      InterventionEngine.RollbackRes.rolledBack "close_segment_0" ∧
    (aget triEngineRolled.1.network.segment_data "S2").map Segment.lanes =
      some 0 ∧
    aget triEngineRolled.1.active_interventions "close_segment_0" = none := by
  decide

/-! ## Claim C1 — stale routes after a mutation -/

/-- C1: after the network mutation `close_segment("S2")`, Dijkstra on the
mutated network routes A→C via `S3`, yet `run_simulation` still assigns the
whole 1000 veh/h of the A→C demand to the closed `S2` and nothing to `S3`:
it reuses the OD paths precomputed at simulator construction. -/
theorem run_simulation_uses_stale_routes :
    (triSimClosed.map (fun st =>
      (CorridorNetwork.dijkstra st.network "A" "C").map (fun r => r.1))) =
      some (some (["S3"], ((3 : ℚ) : WithTop ℚ))) ∧
    ((triSimClosed.bind (fun st =>
        TrafficSimulator.run_simulation st "after")).map
      (fun r => ((aget r.1.segments "S2").map SegResult.flow_vph,
                 (aget r.1.segments "S3").map SegResult.flow_vph))) =
      some (some 1000, some 0) := by
  decide

/-! ## Claim C9 — simulation over a zero-lane segment -/

/-- C9: after the intervention engine closes `S2` (setting its lane count to
0), `run_simulation` does not complete: it hits the `flow / capacity`
division with capacity `0 × 1200 = 0`, i.e. an uncaught
`ZeroDivisionError`. -/
theorem zero_lane_segment_crashes_run :
    (triSimEngineClosed.map (fun st =>
      (aget st.network.segment_data "S2").map Segment.lanes)) =
      some (some 0) ∧
    (triSimEngineClosed.bind (fun st =>
      TrafficSimulator.run_simulation st "closed")) = none := by
  decide

/-! ## Claim C7 — batch intervention independence (counterexample) -/

/-- C7 (counterexample): a malformed `add_lanes` item (missing
`segment_ids`) raises, aborting the whole batch — the following well-formed
`truck_ban` item is never attempted and no outcome list is returned, even
though that item alone succeeds. -/
theorem malformed_item_aborts_batch :
    InterventionEngine.apply_multiple_interventions triEngine
      [itemMalformed, itemBan] = none ∧
    (InterventionEngine.apply_multiple_interventions triEngine
      [itemBan]).isSome = true := by
  decide

/-! ## Claim C5 — BPR curve (counterexample) -/

/-- C5 (counterexample): with free-flow speed 3 km/h (< 5) and capacity
1200, the BPR curve returns 3 at flow 0 (no 5 km/h floor on that branch) and
5 at flow 2400 — so it is not non-increasing, exceeds the free-flow speed,
and returns a value below 5 km/h. -/
theorem bpr_low_free_speed_counterexample :
    TrafficSimulator.bpr_congestion_curve 0 1200 3 = 3 ∧
    TrafficSimulator.bpr_congestion_curve 2400 1200 3 = 5 ∧
    ¬ (TrafficSimulator.bpr_congestion_curve 2400 1200 3 ≤
        TrafficSimulator.bpr_congestion_curve 0 1200 3) ∧
    3 < TrafficSimulator.bpr_congestion_curve 2400 1200 3 ∧
    TrafficSimulator.bpr_congestion_curve 0 1200 3 < 5 := by
  decide

/-! ## Claim C6 — the 3-node line scenario -/

/-- C6 (counterexample): in the spec §8 scenario the computed speed is
exactly 86400/1853 ≈ 46.63 km/h, which is not within 0.1 of the claimed
46.9 km/h (the spec mis-evaluated its own formula 50/(1+0.15·0.833⁴)). -/
theorem line_scenario_speed_not_46_9 :
    ((TrafficSimulator.init lineNet).bind (fun st =>
        TrafficSimulator.run_simulation st "baseline")).map
      (fun r => (aget r.1.segments "S1").map SegResult.speed_kmh) =
      some (some (86400 / 1853)) ∧
    ¬ (|(86400 : ℚ) / 1853 - 469 / 10| ≤ 1 / 10) := by
  decide

/-- C6 (amended): in the spec §8 scenario each segment has capacity
2400 veh/h, flow 2000 veh/h, flow ratio 5/6 (≈ 0.833), speed 86400/1853
(≈ 46.6 km/h, within 0.1), and travel time 1853/720 (≈ 2.57 minutes, within
0.01; also within the 2.56 claimed at 0.1 precision). -/
theorem line_scenario_results :
    TrafficSimulator.calculate_segment_capacity lineNet "S1" = 2400 ∧
    TrafficSimulator.calculate_segment_capacity lineNet "S2" = 2400 ∧
    ((TrafficSimulator.init lineNet).bind (fun st =>
        TrafficSimulator.run_simulation st "baseline")).map
      (fun r =>
        ((aget r.1.segments "S1").map (fun s =>
            (s.flow_vph, s.speed_kmh, s.travel_time_min, s.congestion_ratio)),
         (aget r.1.segments "S2").map (fun s =>
            (s.flow_vph, s.speed_kmh, s.travel_time_min, s.congestion_ratio)))) =
      some (some (2000, 86400 / 1853, 1853 / 720, 5 / 6),
            some (2000, 86400 / 1853, 1853 / 720, 5 / 6)) ∧
    |(5 : ℚ) / 6 - 833 / 1000| ≤ 1 / 1000 ∧
    |(86400 : ℚ) / 1853 - 466 / 10| ≤ 1 / 10 ∧
    |(1853 : ℚ) / 720 - 257 / 100| ≤ 1 / 100 ∧
    |(1853 : ℚ) / 720 - 256 / 100| ≤ 1 / 10 := by
  refine ⟨?_, ?_, ?_, ?_, ?_, ?_, ?_⟩ <;> decide

/-! ## Claim C5 — BPR curve (amended) -/

/-- Bounds of the BPR curve: when the free-flow speed is at least the 5 km/h
floor, the returned speed lies in `[5, free_speed]` for every flow and
capacity. -/
theorem bpr_bounds (flow capacity free_speed : ℚ) (hfree : 5 ≤ free_speed) :
    TrafficSimulator.bpr_congestion_curve flow capacity free_speed ≤ free_speed ∧
    5 ≤ TrafficSimulator.bpr_congestion_curve flow capacity free_speed := by
  have hf0 : (0 : ℚ) ≤ free_speed := by linarith
  unfold TrafficSimulator.bpr_congestion_curve
  split
  · exact ⟨le_rfl, hfree⟩
  · dsimp only
    split
    · refine ⟨max_le (by nlinarith) hfree, le_max_right _ _⟩
    · rename_i hflow hratio
      have h4 : (0 : ℚ) ≤ (flow / max capacity 1) ^ 4 := by positivity
      have hd : (1 : ℚ) ≤ 1 + (3 / 20) * (flow / max capacity 1) ^ 4 := by linarith
      refine ⟨max_le (div_le_self hf0 hd) hfree, le_max_right _ _⟩

/-- Antitonicity of the BPR curve in the flow, over nonnegative flows, when
the free-flow speed is at least 5 km/h. -/
theorem bpr_mono (flow1 flow2 capacity free_speed : ℚ) (hfree : 5 ≤ free_speed)
    (h1 : 0 ≤ flow1) (h12 : flow1 ≤ flow2) :
    TrafficSimulator.bpr_congestion_curve flow2 capacity free_speed ≤
      TrafficSimulator.bpr_congestion_curve flow1 capacity free_speed := by
  have hf0 : (0 : ℚ) ≤ free_speed := by linarith
  rcases eq_or_lt_of_le h1 with he | hpos1
  · have h01 : TrafficSimulator.bpr_congestion_curve flow1 capacity free_speed =
        free_speed := by
      unfold TrafficSimulator.bpr_congestion_curve
      rw [if_pos (le_of_eq he.symm)]
    rw [h01]
    exact (bpr_bounds flow2 capacity free_speed hfree).1
  · have hpos2 : (0 : ℚ) < flow2 := lt_of_lt_of_le hpos1 h12
    have hmpos : (0 : ℚ) < max capacity 1 := lt_of_lt_of_le one_pos (le_max_right _ _)
    have hr12 : flow1 / max capacity 1 ≤ flow2 / max capacity 1 := by gcongr
    have hr1nn : (0 : ℚ) ≤ flow1 / max capacity 1 := by positivity
    unfold TrafficSimulator.bpr_congestion_curve
    rw [if_neg (not_le.mpr hpos1), if_neg (not_le.mpr hpos2)]
    by_cases hb1 : 1 < flow1 / max capacity 1
    · rw [if_pos hb1, if_pos (lt_of_lt_of_le hb1 hr12)]
    · by_cases hb2 : 1 < flow2 / max capacity 1
      · rw [if_pos hb2, if_neg hb1]
        refine max_le_max ?_ le_rfl
        have hr1le : flow1 / max capacity 1 ≤ 1 := not_lt.mp hb1
        have h4 : (flow1 / max capacity 1) ^ 4 ≤ 1 := pow_le_one₀ hr1nn hr1le
        have hden_pos : (0 : ℚ) < 1 + (3 / 20) * (flow1 / max capacity 1) ^ 4 := by
          positivity
        have hden_le : 1 + (3 / 20) * (flow1 / max capacity 1) ^ 4 ≤ 23 / 20 := by
          nlinarith
        have step1 : free_speed * (3 / 10) ≤ free_speed / (23 / 20) := by
          rw [show free_speed / (23 / 20) = free_speed * (20 / 23) by ring]
          exact mul_le_mul_of_nonneg_left (by norm_num) hf0
        have step2 : free_speed / (23 / 20) ≤
            free_speed / (1 + (3 / 20) * (flow1 / max capacity 1) ^ 4) := by
          gcongr
        exact le_trans step1 step2
      · rw [if_neg hb1, if_neg hb2]
        refine max_le_max ?_ le_rfl
        have h44 : (flow1 / max capacity 1) ^ 4 ≤ (flow2 / max capacity 1) ^ 4 :=
          pow_le_pow_left₀ hr1nn hr12 4
        have hden_pos : (0 : ℚ) < 1 + (3 / 20) * (flow1 / max capacity 1) ^ 4 := by
          positivity
        gcongr

/-- C5 (amended): for every fixed capacity > 0 and free-flow speed ≥ 5 km/h,
the BPR congestion curve over flows ≥ 0 is non-increasing in the flow, never
exceeds the free-flow speed, and never drops below 5 km/h. -/
theorem bpr_monotone_bounded (flow1 flow2 capacity free_speed : ℚ)
    (hcap : 0 < capacity) (hfree : 5 ≤ free_speed)
    (h1 : 0 ≤ flow1) (h12 : flow1 ≤ flow2) :
    TrafficSimulator.bpr_congestion_curve flow2 capacity free_speed ≤
      TrafficSimulator.bpr_congestion_curve flow1 capacity free_speed ∧
    TrafficSimulator.bpr_congestion_curve flow1 capacity free_speed ≤ free_speed ∧
    TrafficSimulator.bpr_congestion_curve flow2 capacity free_speed ≤ free_speed ∧
    5 ≤ TrafficSimulator.bpr_congestion_curve flow1 capacity free_speed ∧
    5 ≤ TrafficSimulator.bpr_congestion_curve flow2 capacity free_speed :=
  ⟨bpr_mono flow1 flow2 capacity free_speed hfree h1 h12,
   (bpr_bounds flow1 capacity free_speed hfree).1,
   (bpr_bounds flow2 capacity free_speed hfree).1,
   (bpr_bounds flow1 capacity free_speed hfree).2,
   (bpr_bounds flow2 capacity free_speed hfree).2⟩

/-- C5 (witness): the amended claim at flows 1000 ≤ 2400, capacity 1200,
free-flow speed 50. -/
theorem bpr_monotone_bounded_witness :
    TrafficSimulator.bpr_congestion_curve 2400 1200 50 ≤
      TrafficSimulator.bpr_congestion_curve 1000 1200 50 ∧
    TrafficSimulator.bpr_congestion_curve 1000 1200 50 ≤ 50 ∧
    TrafficSimulator.bpr_congestion_curve 2400 1200 50 ≤ 50 ∧
    5 ≤ TrafficSimulator.bpr_congestion_curve 1000 1200 50 ∧
    5 ≤ TrafficSimulator.bpr_congestion_curve 2400 1200 50 :=
  bpr_monotone_bounded 1000 2400 1200 50 (by norm_num) (by norm_num)
    (by norm_num) (by norm_num)

/-! ## Claim C10 — zone AQI -/

theorem aget_getD_cases {κ α : Type} [DecidableEq κ] (l : List (κ × α)) (k : κ) (d : α) :
    (aget l k).getD d = d ∨ (aget l k).getD d ∈ l.map Prod.snd := by
  induction l with
  | nil => left; rfl
  | cons e t ih =>
    obtain ⟨a, b⟩ := e
    by_cases h : a = k
    · right
      simp [aget, h]
    · rcases ih with ih | ih
      · left
        simpa [aget, h] using ih
      · right
        simp only [aget, if_neg h]
        exact List.mem_cons_of_mem _ ih

/-- The background table yields a value in `[245, 290]` for every zone id
(including the 250 default for unknown zones). -/
theorem background_bounds (z : String) :
    245 ≤ (aget EmissionsModel.ZONE_BACKGROUND_AQI z).getD 250 ∧
    (aget EmissionsModel.ZONE_BACKGROUND_AQI z).getD 250 ≤ 290 := by
  rcases aget_getD_cases EmissionsModel.ZONE_BACKGROUND_AQI z 250 with h | h
  · rw [h]; norm_num
  · unfold EmissionsModel.ZONE_BACKGROUND_AQI at h ⊢
    simp only [List.map_cons, List.map_nil, List.mem_cons, List.not_mem_nil,
      or_false] at h
    rcases h with h|h|h|h|h|h|h|h <;> rw [h] <;> norm_num

/-- Nonnegative PM2.5 over a positive zone area gives a nonnegative AQI
estimate. -/
theorem estimate_aqi_nonneg (pm area : ℚ) (hpm : 0 ≤ pm) (harea : 0 < area) :
    0 ≤ EmissionsModel.estimate_aqi_from_emissions pm area := by
  unfold EmissionsModel.estimate_aqi_from_emissions
  dsimp only
  have hc0 : (0 : ℚ) ≤ pm * 1000 / (area * 1000000) * 1000000 * (6 / 10) := by
    positivity
  set c := pm * 1000 / (area * 1000000) * 1000000 * (6 / 10) with hc
  refine le_min ?_ (by norm_num)
  split
  · positivity
  · split
    · rename_i h30 h60
      have : (0 : ℚ) ≤ c - 30 := by linarith [not_le.mp h30]
      have : (0 : ℚ) ≤ (c - 30) / 30 * 50 := by positivity
      linarith
    · split
      · rename_i h30 h60 h90
        have : (0 : ℚ) ≤ c - 60 := by linarith [not_le.mp h60]
        have : (0 : ℚ) ≤ (c - 60) / 30 * 100 := by positivity
        linarith
      · split
        · rename_i h30 h60 h90 h120
          have : (0 : ℚ) ≤ c - 90 := by linarith [not_le.mp h90]
          have : (0 : ℚ) ≤ (c - 90) / 30 * 100 := by positivity
          linarith
        · rename_i h30 h60 h90 h120
          have h1 : (0 : ℚ) ≤ c - 120 := by linarith [not_le.mp h120]
          have h2 : (0 : ℚ) ≤ (c - 120) / 120 * 200 := by positivity
          have h3 : (0 : ℚ) ≤ min ((c - 120) / 120 * 200) 200 :=
            le_min h2 (by norm_num)
          linarith

/-- A segment-emissions dict built from nonnegative stored flows and
nonnegative lengths has nonnegative PM2.5. -/
theorem segment_emissions_pm25_nonneg (st : SimState) (sid : String)
    (e : SegEmissions)
    (hflows : ∀ p ∈ st.simulation_results, ∀ se ∈ p.2.segments, 0 ≤ se.2.flow_vph)
    (hlens : ∀ p ∈ st.network.segment_data, 0 ≤ p.2.length_km)
    (h : EmissionsModel.compute_segment_emissions st sid = some (some e)) :
    0 ≤ e.PM25 := by
  unfold EmissionsModel.compute_segment_emissions at h
  unfold TrafficSimulator.get_segment_results at h
  cases hh : st.simulation_results.head? with
  | none => rw [hh] at h; simp at h
  | some p =>
    rw [hh] at h
    dsimp only at h
    cases hr : aget p.2.segments sid with
    | none => rw [hr] at h; simp at h
    | some r =>
      rw [hr] at h
      dsimp only at h
      cases hs : aget st.network.segment_data sid with
      | none => rw [hs] at h; simp at h
      | some seg =>
        rw [hs] at h
        dsimp only at h
        simp only [Option.some.injEq] at h
        have hflow : 0 ≤ r.flow_vph :=
          hflows p (List.mem_of_mem_head? hh) (sid, r) (aget_mem hr)
        have hlen : 0 ≤ seg.length_km := hlens (sid, seg) (aget_mem hs)
        have : 0 ≤ r.flow_vph * (7 / 10) * 24 * seg.length_km := by positivity
        have : 0 ≤ r.flow_vph * (3 / 10) * 24 * seg.length_km := by positivity
        rw [← h]
        dsimp only
        nlinarith

/-- Zone aggregation preserves the nonnegativity of PM2.5. -/
theorem zone_emissions_pm25_nonneg (st : SimState)
    (hflows : ∀ p ∈ st.simulation_results, ∀ se ∈ p.2.segments, 0 ≤ se.2.flow_vph)
    (hlens : ∀ p ∈ st.network.segment_data, 0 ≤ p.2.length_km) :
    ∀ (segs : List String) (acc ze : ZoneEmissions), 0 ≤ acc.PM25 →
      EmissionsModel.zoneEmissionsGo st segs acc = some ze → 0 ≤ ze.PM25
  | [], acc, ze, hacc, h => by
    unfold EmissionsModel.zoneEmissionsGo at h
    simp only [Option.some.injEq] at h
    rw [← h]; exact hacc
  | sid :: rest, acc, ze, hacc, h => by
    unfold EmissionsModel.zoneEmissionsGo at h
    cases hs : EmissionsModel.compute_segment_emissions st sid with
    | none => rw [hs] at h; simp at h
    | some oe =>
      rw [hs] at h
      cases oe with
      | none =>
        exact zone_emissions_pm25_nonneg st hflows hlens rest acc ze hacc h
      | some e =>
        have he : 0 ≤ e.PM25 := segment_emissions_pm25_nonneg st sid e hflows hlens hs
        refine zone_emissions_pm25_nonneg st hflows hlens rest _ ze ?_ h
        dsimp only
        linarith

/-- C10: for every zone, `compute_zone_aqi` returns
`total_aqi = min (background + traffic·0.15) 500` where the traffic
contribution is the AQI estimate of the zone's PM2.5 scaled by 0.15;
consequently (for nonnegative stored flows and segment lengths, so the
traffic contribution is ≥ 0) `0 ≤ total_aqi ≤ 500` and
`background_aqi ≤ total_aqi`. -/
theorem compute_zone_aqi_spec (st : SimState) (zone_id : String) (res : ZoneAQI)
    (hflows : ∀ p ∈ st.simulation_results, ∀ se ∈ p.2.segments, 0 ≤ se.2.flow_vph)
    (hlens : ∀ p ∈ st.network.segment_data, 0 ≤ p.2.length_km)
    (hres : EmissionsModel.compute_zone_aqi st zone_id = some res) :
    res.total_aqi = min (res.background_aqi + res.traffic_aqi_contribution) 500 ∧
    res.background_aqi = (aget EmissionsModel.ZONE_BACKGROUND_AQI zone_id).getD 250 ∧
    res.traffic_aqi_contribution =
      EmissionsModel.estimate_aqi_from_emissions (res.pm25_grams / 1000) 5 * (15 / 100) ∧
    0 ≤ res.total_aqi ∧ res.total_aqi ≤ 500 ∧
    res.background_aqi ≤ res.total_aqi := by
  unfold EmissionsModel.compute_zone_aqi at hres
  cases hz : EmissionsModel.compute_zone_emissions st zone_id with
  | none => rw [hz] at hres; simp at hres
  | some ze =>
    rw [hz] at hres
    dsimp only at hres
    simp only [Option.some.injEq] at hres
    have hpm : 0 ≤ ze.PM25 := by
      unfold EmissionsModel.compute_zone_emissions at hz
      exact zone_emissions_pm25_nonneg st hflows hlens _ _ ze (le_refl 0) hz
    have ht : 0 ≤ EmissionsModel.estimate_aqi_from_emissions (ze.PM25 / 1000) 5 :=
      estimate_aqi_nonneg _ _ (by positivity) (by norm_num)
    have hbg := background_bounds zone_id
    subst hres
    refine ⟨rfl, rfl, rfl, ?_, ?_, ?_⟩
    · exact le_min (by nlinarith [hbg.1, hbg.2]) (by norm_num)
    · exact min_le_right _ _
    · exact le_min (by nlinarith) (by linarith [hbg.2])

/-- C10 (witness): the concrete example state, zone `Z01`: total AQI
`min (250 + 75) 500 = 325`, within bounds and above the background. -/
theorem compute_zone_aqi_spec_witness :
    EmissionsModel.compute_zone_aqi aqiExampleState "Z01" = some aqiExampleResult ∧
    aqiExampleResult.total_aqi =
      min (aqiExampleResult.background_aqi + aqiExampleResult.traffic_aqi_contribution)
        500 ∧
    0 ≤ aqiExampleResult.total_aqi ∧ aqiExampleResult.total_aqi ≤ 500 ∧
    aqiExampleResult.background_aqi ≤ aqiExampleResult.total_aqi := by
  have h := compute_zone_aqi_spec aqiExampleState "Z01" aqiExampleResult
    (by decide) (by decide) (by decide)
  exact ⟨by decide, h.1, h.2.2.2.1, h.2.2.2.2.1, h.2.2.2.2.2⟩

/-! ## Claim C7 — batch independence (amended) -/

/-- One batch item whose required keys are present (or whose type is
unrecognised) is dispatched without an exception, and its individual outcome
is the type-tagged result dict or the unknown-type error entry. -/
theorem apply_one_ok (st : EngineState) (it : InterventionEngine.InterventionItem)
    (hok : InterventionEngine.itemOK it = true) :
    ∃ st' r, InterventionEngine.apply_one st it = some (st', r) ∧
      (InterventionEngine.knownTypeB it.itype = false →
        r = InterventionEngine.AResult.unknownType it.itype) ∧
      (InterventionEngine.knownTypeB it.itype = true →
        ∃ iid, r = InterventionEngine.AResult.applied iid (it.itype.getD "")) := by
  unfold InterventionEngine.itemOK at hok
  unfold InterventionEngine.apply_one
  split
  · rename_i heq
    rw [heq] at hok
    simp only at hok
    obtain ⟨ids, hids⟩ := Option.isSome_iff_exists.mp hok
    rw [hids]
    refine ⟨_, _, rfl, ?_, ?_⟩
    · intro hfalse
      rw [heq] at hfalse
      exact absurd hfalse (by decide)
    · intro _
      rw [heq]
      exact ⟨(InterventionEngine.add_lanes st ids (it.num_lanes.getD 1)).2, rfl⟩
  · rename_i heq
    rw [heq] at hok
    simp only at hok
    obtain ⟨ids, hids⟩ := Option.isSome_iff_exists.mp hok
    rw [hids]
    refine ⟨_, _, rfl, ?_, ?_⟩
    · intro hfalse
      rw [heq] at hfalse
      exact absurd hfalse (by decide)
    · intro _
      rw [heq]
      exact ⟨(InterventionEngine.modify_signal_timing st ids it.cycle_time
        it.green_time).2, rfl⟩
  · rename_i heq
    rw [heq] at hok
    simp only at hok
    obtain ⟨ids, hids⟩ := Option.isSome_iff_exists.mp hok
    rw [hids]
    refine ⟨_, _, rfl, ?_, ?_⟩
    · intro hfalse
      rw [heq] at hfalse
      exact absurd hfalse (by decide)
    · intro _
      rw [heq]
      exact ⟨(InterventionEngine.close_segment st ids).2, rfl⟩
  · rename_i heq
    rw [heq] at hok
    simp only at hok
    obtain ⟨ids, hids⟩ := Option.isSome_iff_exists.mp hok
    rw [hids]
    refine ⟨_, _, rfl, ?_, ?_⟩
    · intro hfalse
      rw [heq] at hfalse
      exact absurd hfalse (by decide)
    · intro _
      rw [heq]
      exact ⟨(InterventionEngine.truck_ban st ids it.time_window).2, rfl⟩
  · rename_i heq
    rw [heq] at hok
    simp only [Bool.and_eq_true] at hok
    obtain ⟨fs, hfs⟩ := Option.isSome_iff_exists.mp hok.1
    obtain ⟨ts, hts⟩ := Option.isSome_iff_exists.mp hok.2
    rw [hfs, hts]
    refine ⟨_, _, rfl, ?_, ?_⟩
    · intro hfalse
      rw [heq] at hfalse
      exact absurd hfalse (by decide)
    · intro _
      rw [heq]
      exact ⟨(InterventionEngine.reroute_traffic st fs ts
        (it.percentage.getD 100)).2, rfl⟩
  · rename_i h1 h2 h3 h4 h5
    refine ⟨st, _, rfl, fun _ => rfl, ?_⟩
    intro htrue
    unfold InterventionEngine.knownTypeB at htrue
    split at htrue
    · rename_i heq; exact absurd heq h1
    · rename_i heq; exact absurd heq h2
    · rename_i heq; exact absurd heq h3
    · rename_i heq; exact absurd heq h4
    · rename_i heq; exact absurd heq h5
    · exact absurd htrue (by decide)

/-- C7 (amended): a batch whose items all carry the keys their handlers read
is processed item-by-item to completion: every item is attempted, the result
list has one entry per item in order, unknown-type items yield error entries
without stopping the batch, and recognised items yield their result dicts
(unknown segment/intersection ids inside an item are skipped by the handlers
themselves and never raise). A malformed item, by contrast, aborts the whole
batch (see the counterexample). -/
theorem apply_multiple_independent :
    ∀ (items : List InterventionEngine.InterventionItem) (st : EngineState),
      (∀ it ∈ items, InterventionEngine.itemOK it = true) →
      ∃ rs st', InterventionEngine.apply_multiple_interventions st items =
          some (rs, st') ∧
        rs.length = items.length ∧
        ∀ i (hi : i < items.length) (hr : i < rs.length),
          (InterventionEngine.knownTypeB (items.get ⟨i, hi⟩).itype = false →
            rs.get ⟨i, hr⟩ =
              InterventionEngine.AResult.unknownType (items.get ⟨i, hi⟩).itype) ∧
          (InterventionEngine.knownTypeB (items.get ⟨i, hi⟩).itype = true →
            ∃ iid, rs.get ⟨i, hr⟩ =
              InterventionEngine.AResult.applied iid ((items.get ⟨i, hi⟩).itype.getD ""))
  | [], st, h =>
    ⟨[], st, rfl, rfl, fun i hi _ => absurd hi (Nat.not_lt_zero i)⟩
  | item :: rest, st, h => by
    obtain ⟨st1, r, hone, hfalse, htrue⟩ :=
      apply_one_ok st item (h item (List.mem_cons_self _ _))
    obtain ⟨rs, st2, hmulti, hlen, hidx⟩ :=
      apply_multiple_independent rest st1
        (fun it hit => h it (List.mem_cons_of_mem _ hit))
    refine ⟨r :: rs, st2, ?_, ?_, ?_⟩
    · unfold InterventionEngine.apply_multiple_interventions
      rw [hone]
      dsimp only
      rw [hmulti]
    · simp [hlen]
    · intro i hi hr
      cases i with
      | zero => exact ⟨hfalse, htrue⟩
      | succ j =>
        exact hidx j (Nat.lt_of_succ_lt_succ hi) (Nat.lt_of_succ_lt_succ hr)

/-- C7 (witness): a concrete two-item batch — a well-formed `truck_ban`
followed by an unknown-type item — is fully processed with one outcome per
item. -/
theorem apply_multiple_independent_witness :
    ∃ rs st', InterventionEngine.apply_multiple_interventions triEngine
        [itemBan, { itemBan with itype := some "bogus" }] = some (rs, st') ∧
      rs.length = [itemBan, { itemBan with itype := some "bogus" }].length ∧
      ∀ i (hi : i < [itemBan, { itemBan with itype := some "bogus" }].length)
        (hr : i < rs.length),
        (InterventionEngine.knownTypeB
            ([itemBan, { itemBan with itype := some "bogus" }].get ⟨i, hi⟩).itype =
              false →
          rs.get ⟨i, hr⟩ = InterventionEngine.AResult.unknownType
            ([itemBan, { itemBan with itype := some "bogus" }].get ⟨i, hi⟩).itype) ∧
        (InterventionEngine.knownTypeB
            ([itemBan, { itemBan with itype := some "bogus" }].get ⟨i, hi⟩).itype =
              true →
          ∃ iid, rs.get ⟨i, hr⟩ = InterventionEngine.AResult.applied iid
            (([itemBan, { itemBan with itype := some "bogus" }].get ⟨i, hi⟩).itype.getD
              "")) :=
  apply_multiple_independent [itemBan, { itemBan with itype := some "bogus" }]
    triEngine (by decide)

/-! ## Claim C8 — determinism of `run_simulation` -/

theorem aget_staticmap (sd : List (String × Segment)) (k : String) :
    aget (staticmap sd) k = (aget sd k).map Segment.statics := by
  induction sd with
  | nil => rfl
  | cons e t ih =>
    obtain ⟨a, b⟩ := e
    by_cases h : a = k
    · simp [staticmap, aget, h]
    · simpa [staticmap, aget, h] using ih

theorem staticmap_amod_dyn (sd : List (String × Segment)) (k : String)
    (f : Segment → Segment) (hf : ∀ s, (f s).statics = s.statics) :
    staticmap (amod sd k f) = staticmap sd := by
  induction sd with
  | nil => rfl
  | cons e t ih =>
    obtain ⟨a, b⟩ := e
    by_cases h : a = k
    · simp [staticmap, amod, h, hf]
    · simpa [staticmap, amod, h] using ih

theorem staticmap_keys (sd : List (String × Segment)) :
    (staticmap sd).map Prod.fst = sd.map Prod.fst := by
  induction sd with
  | nil => rfl
  | cons e t ih => simpa [staticmap] using ih

theorem resetGo_static (sd : List (String × Segment)) :
    TrafficSimulator.resetGo sd = TrafficSimulator.resetGoS (staticmap sd) := by
  induction sd with
  | nil => rfl
  | cons e t ih =>
    obtain ⟨a, b⟩ := e
    unfold TrafficSimulator.resetGo
    show _ = TrafficSimulator.resetGoS (((a, b.statics)) :: staticmap t)
    unfold TrafficSimulator.resetGoS
    rw [ih]
    rfl

theorem capacity_static (net : CorridorNetwork) (sid : String) :
    TrafficSimulator.calculate_segment_capacity net sid =
      TrafficSimulator.capacityS (staticmap net.segment_data) sid := by
  unfold TrafficSimulator.calculate_segment_capacity TrafficSimulator.capacityS
  rw [aget_staticmap]
  cases aget net.segment_data sid <;> rfl

theorem segmentLoop_static (flows : List (String × ℚ)) :
    ∀ (sids : List String) (speeds tts : List (String × ℚ)) (net : CorridorNetwork),
      (TrafficSimulator.segmentLoop flows sids (speeds, tts, net)).map
          (fun x => (x.1, x.2.1)) =
        TrafficSimulator.segmentLoopS (staticmap net.segment_data) flows sids
          (speeds, tts) ∧
      (∀ speeds' tts' net',
        TrafficSimulator.segmentLoop flows sids (speeds, tts, net) =
          some (speeds', tts', net') →
        staticmap net'.segment_data = staticmap net.segment_data ∧
        net'.od_matrix = net.od_matrix)
  | [], speeds, tts, net => by
    refine ⟨rfl, ?_⟩
    intro sp tt net' h
    unfold TrafficSimulator.segmentLoop at h
    simp only [Option.some.injEq, Prod.mk.injEq] at h
    rw [← h.2.2]
    exact ⟨rfl, rfl⟩
  | sid :: rest, speeds, tts, net => by
    unfold TrafficSimulator.segmentLoop TrafficSimulator.segmentLoopS
    rw [aget_staticmap]
    cases hseg : aget net.segment_data sid with
    | none =>
      refine ⟨rfl, ?_⟩
      intro sp tt net' h
      cases h
    | some seg =>
      simp only [Option.map_some']
      cases hflow : aget flows sid with
      | none =>
        refine ⟨rfl, ?_⟩
        intro sp tt net' h
        cases h
      | some flow =>
        dsimp only
        rw [← capacity_static]
        simp only [Segment.statics]
        by_cases hq : 0 < flow ∧
            1 < flow / max (TrafficSimulator.calculate_segment_capacity net sid) 1
        · rw [if_pos hq, if_pos hq]
          cases hh : flows.head? with
          | none =>
            refine ⟨rfl, ?_⟩
            intro sp tt net' h
            cases h
          | some e =>
            dsimp only
            by_cases hc : TrafficSimulator.calculate_segment_capacity net sid = 0
            · rw [if_pos hc, if_pos hc]
              refine ⟨rfl, ?_⟩
              intro sp tt net' h
              cases h
            · rw [if_neg hc, if_neg hc]
              have hsm : staticmap
                  (CorridorNetwork.update_segment_state
                    { net with
                        segment_data := amod net.segment_data e.1
                          (fun s => { s with queue_length :=
                            (flow - TrafficSimulator.calculate_segment_capacity net sid) / 60 }) }
                    sid flow
                    (TrafficSimulator.bpr_congestion_curve flow
                      (TrafficSimulator.calculate_segment_capacity net sid)
                      seg.speed_limit_kmh)
                    (flow / TrafficSimulator.calculate_segment_capacity net sid)).segment_data =
                  staticmap net.segment_data := by
                unfold CorridorNetwork.update_segment_state
                dsimp only
                refine (staticmap_amod_dyn _ _ _ ?_).trans
                  (staticmap_amod_dyn _ _ _ ?_) <;> intro s <;> rfl
              obtain ⟨ihmap, ihpres⟩ := segmentLoop_static flows rest _ _ _
              refine ⟨?_, ?_⟩
              · rw [ihmap, hsm]
              · intro sp tt net' h
                obtain ⟨hm, ho⟩ := ihpres sp tt net' h
                exact ⟨hm.trans hsm, ho⟩
        · rw [if_neg hq, if_neg hq]
          dsimp only
          by_cases hc : TrafficSimulator.calculate_segment_capacity net sid = 0
          · rw [if_pos hc, if_pos hc]
            refine ⟨rfl, ?_⟩
            intro sp tt net' h
            cases h
          · rw [if_neg hc, if_neg hc]
            have hsm : staticmap
                (CorridorNetwork.update_segment_state net sid flow
                  (TrafficSimulator.bpr_congestion_curve flow
                    (TrafficSimulator.calculate_segment_capacity net sid)
                    seg.speed_limit_kmh)
                  (flow / TrafficSimulator.calculate_segment_capacity net sid)).segment_data =
                staticmap net.segment_data := by
              unfold CorridorNetwork.update_segment_state
              dsimp only
              refine staticmap_amod_dyn _ _ _ ?_
              intro s
              rfl
            obtain ⟨ihmap, ihpres⟩ := segmentLoop_static flows rest _ _ _
            refine ⟨?_, ?_⟩
            · rw [ihmap, hsm]
            · intro sp tt net' h
              obtain ⟨hm, ho⟩ := ihpres sp tt net' h
              exact ⟨hm.trans hsm, ho⟩

theorem compileSegGo_static (net : CorridorNetwork) (flows speeds tts : List (String × ℚ)) :
    ∀ sids, TrafficSimulator.compileSegGo net flows speeds tts sids =
      TrafficSimulator.compileSegGoS (staticmap net.segment_data) flows speeds tts sids
  | [] => rfl
  | sid :: rest => by
    unfold TrafficSimulator.compileSegGo TrafficSimulator.compileSegGoS
    rw [aget_staticmap]
    cases hseg : aget net.segment_data sid with
    | none => rfl
    | some seg =>
      simp only [Option.map_some']
      cases hf : aget flows sid with
      | none => rfl
      | some flow =>
        cases hs : aget speeds sid with
        | none => rfl
        | some speed =>
          cases ht : aget tts sid with
          | none => rfl
          | some tt =>
            dsimp only
            rw [← capacity_static]
            simp only [Segment.statics]
            rw [compileSegGo_static net flows speeds tts rest]

theorem compileZoneGo_static (net : CorridorNetwork) :
    ∀ (rs : List (String × SegResult)) (zones : List (String × ZoneResult)),
      TrafficSimulator.compileZoneGo net rs zones =
        TrafficSimulator.compileZoneGoS (staticmap net.segment_data) rs zones
  | [], zones => rfl
  | (sid, r) :: rest, zones => by
    unfold TrafficSimulator.compileZoneGo TrafficSimulator.compileZoneGoS
    rw [aget_staticmap]
    cases hseg : aget net.segment_data sid with
    | none => rfl
    | some seg =>
      simp only [Option.map_some']
      simp only [Segment.statics]
      exact compileZoneGo_static net rest _

theorem run_simulation_static (st : SimState) (name : String) :
    (TrafficSimulator.run_simulation st name).map Prod.fst =
      TrafficSimulator.run_simulationS st.network.od_matrix st.od_paths
        (staticmap st.network.segment_data) ∧
    ∀ r st', TrafficSimulator.run_simulation st name = some (r, st') →
      staticmap st'.network.segment_data = staticmap st.network.segment_data ∧
      st'.network.od_matrix = st.network.od_matrix ∧
      st'.od_paths = st.od_paths := by
  unfold TrafficSimulator.run_simulation TrafficSimulator.run_simulationS
  unfold TrafficSimulator.reset_segment_state
  rw [resetGo_static]
  cases h0 : TrafficSimulator.resetGoS (staticmap st.network.segment_data) with
  | none => exact ⟨rfl, by intro r st' h; cases h⟩
  | some tri =>
    obtain ⟨flows0, speeds0, tts0⟩ := tri
    dsimp only
    cases h1 : TrafficSimulator.routeAll st.od_paths st.network.od_matrix flows0 with
    | none => exact ⟨rfl, by intro r st' h; cases h⟩
    | some flows =>
      dsimp only
      have hkeys : (staticmap st.network.segment_data).map Prod.fst =
          st.network.get_all_segments := staticmap_keys _
      rw [hkeys]
      obtain ⟨hmap, hpres⟩ :=
        segmentLoop_static flows st.network.get_all_segments speeds0 tts0 st.network
      cases h2 : TrafficSimulator.segmentLoop flows st.network.get_all_segments
          (speeds0, tts0, st.network) with
      | none =>
        rw [h2] at hmap
        rw [← hmap]
        exact ⟨rfl, by intro r st' h; cases h⟩
      | some trip =>
        obtain ⟨speeds, tts, net'⟩ := trip
        rw [h2] at hmap
        simp only [Option.map_some'] at hmap
        obtain ⟨hsm, hom⟩ := hpres _ _ _ h2
        rw [← hmap]
        dsimp only
        have hkeys' : net'.get_all_segments = st.network.get_all_segments := by
          show net'.segment_data.map Prod.fst = st.network.segment_data.map Prod.fst
          rw [← staticmap_keys net'.segment_data, hsm, staticmap_keys]
        rw [compileSegGo_static net' flows speeds tts _, hsm, hkeys']
        cases h3 : TrafficSimulator.compileSegGoS (staticmap st.network.segment_data)
            flows speeds tts st.network.get_all_segments with
        | none => exact ⟨rfl, by intro r st' h; cases h⟩
        | some segRes =>
          dsimp only
          rw [compileZoneGo_static net' segRes [], hsm]
          cases h4 : TrafficSimulator.compileZoneGoS
              (staticmap st.network.segment_data) segRes [] with
          | none => exact ⟨rfl, by intro r st' h; cases h⟩
          | some zonesRaw =>
            dsimp only
            refine ⟨rfl, ?_⟩
            intro r st' h
            simp only [Option.some.injEq, Prod.mk.injEq] at h
            rw [← h.2]
            exact ⟨hsm, hom, rfl⟩

/-- C8: running `run_simulation` again with the same scenario name on the
state left by a successful run reproduces the first run's result exactly —
in particular the per-segment flow, speed, travel time and congestion ratio.
This holds because the run reads only static segment attributes, the OD
table and the precomputed OD paths, and writes only dynamic attributes. -/
theorem run_simulation_deterministic (st : SimState) (name : String)
    (r1 : SimResult) (st1 : SimState)
    (h1 : TrafficSimulator.run_simulation st name = some (r1, st1)) :
    ∃ r2 st2, TrafficSimulator.run_simulation st1 name = some (r2, st2) ∧
      r2 = r1 ∧ r2.segments = r1.segments := by
  obtain ⟨hmap1, hpres1⟩ := run_simulation_static st name
  obtain ⟨hsm, hom, hop⟩ := hpres1 r1 st1 h1
  obtain ⟨hmap2, _⟩ := run_simulation_static st1 name
  rw [hsm, hom, hop] at hmap2
  rw [h1] at hmap1
  simp only [Option.map_some'] at hmap1
  rw [← hmap1] at hmap2
  cases h2 : TrafficSimulator.run_simulation st1 name with
  | none => rw [h2] at hmap2; cases hmap2
  | some p =>
    obtain ⟨r2, st2⟩ := p
    rw [h2] at hmap2
    simp only [Option.map_some', Option.some.injEq] at hmap2
    exact ⟨r2, st2, rfl, hmap2, by rw [hmap2]⟩

/-- C8 (witness): the solo scenario run twice from its post-run state
reproduces `soloResult`. -/
theorem run_simulation_deterministic_witness :
    ∃ r2 st2, TrafficSimulator.run_simulation soloAfter "baseline" =
        some (r2, st2) ∧
      r2 = soloResult ∧ r2.segments = soloResult.segments :=
  run_simulation_deterministic soloSim "baseline" soloResult soloAfter (by decide)

namespace CorridorNetwork

theorem pqLe_refl (a : ℚ × String) : pqLe a a := Or.inr ⟨rfl, le_rfl⟩

theorem pqLe_trans {a b c : ℚ × String} (h1 : pqLe a b) (h2 : pqLe b c) : pqLe a c := by
  rcases h1 with h1 | ⟨h1e, h1s⟩
  · rcases h2 with h2 | ⟨h2e, h2s⟩
    · exact Or.inl (lt_trans h1 h2)
    · exact Or.inl (h2e ▸ h1)
  · rcases h2 with h2 | ⟨h2e, h2s⟩
    · exact Or.inl (h1e ▸ h2)
    · exact Or.inr ⟨h1e.trans h2e, h1s.trans h2s⟩

theorem pqLe_of_not {a b : ℚ × String} (h : ¬ pqLe a b) : pqLe b a := by
  unfold pqLe at h ⊢
  push_neg at h
  obtain ⟨h1, h2⟩ := h
  rcases lt_or_eq_of_le h1 with hlt | heq
  · exact Or.inl hlt
  · exact Or.inr ⟨heq, le_of_lt (h2 heq.symm)⟩

theorem pqLe_fst_le {a b : ℚ × String} (h : pqLe a b) : a.1 ≤ b.1 := by
  rcases h with h | ⟨h, _⟩
  · exact le_of_lt h
  · exact le_of_eq h

theorem popMin_eq_none : ∀ {l : List (ℚ × String)}, popMin l = none → l = []
  | [], _ => rfl
  | e :: t, h => by
    unfold popMin at h
    cases ht : popMin t with
    | none => rw [ht] at h; cases h
    | some m => rw [ht] at h; dsimp only at h; split at h <;> cases h

theorem popMin_perm : ∀ {l : List (ℚ × String)} {m : ℚ × String}
    {rest : List (ℚ × String)}, popMin l = some (m, rest) → l.Perm (m :: rest)
  | [], m, rest, h => by cases h
  | e :: t, m, rest, h => by
    unfold popMin at h
    cases ht : popMin t with
    | none =>
      rw [ht] at h
      simp only [Option.some.injEq, Prod.mk.injEq] at h
      rw [popMin_eq_none ht, ← h.1, ← h.2]
    | some mr =>
      obtain ⟨m', rest'⟩ := mr
      rw [ht] at h
      dsimp only at h
      split at h
      · simp only [Option.some.injEq, Prod.mk.injEq] at h
        rw [← h.1, ← h.2]
      · simp only [Option.some.injEq, Prod.mk.injEq] at h
        have hperm := popMin_perm ht
        rw [← h.1, ← h.2]
        exact (hperm.cons e).trans (List.Perm.swap m' e rest')

theorem popMin_min : ∀ {l : List (ℚ × String)} {m : ℚ × String}
    {rest : List (ℚ × String)}, popMin l = some (m, rest) →
      ∀ x ∈ l, pqLe m x
  | [], m, rest, h => by cases h
  | e :: t, m, rest, h => by
    unfold popMin at h
    cases ht : popMin t with
    | none =>
      rw [ht] at h
      simp only [Option.some.injEq, Prod.mk.injEq] at h
      intro x hx
      rw [popMin_eq_none ht] at hx
      rcases List.mem_singleton.mp hx with rfl
      rw [← h.1]
      exact pqLe_refl x
    | some mr =>
      obtain ⟨m', rest'⟩ := mr
      rw [ht] at h
      dsimp only at h
      split at h
      · rename_i hle
        simp only [Option.some.injEq, Prod.mk.injEq] at h
        intro x hx
        rcases List.mem_cons.mp hx with rfl | hx
        · rw [← h.1]; exact pqLe_refl x
        · rw [← h.1]
          exact pqLe_trans hle (popMin_min ht x hx)
      · rename_i hnle
        simp only [Option.some.injEq, Prod.mk.injEq] at h
        intro x hx
        rcases List.mem_cons.mp hx with rfl | hx
        · rw [← h.1]; exact pqLe_of_not hnle
        · rw [← h.1]; exact popMin_min ht x hx

theorem aset_isSome_of {κ α : Type} [DecidableEq κ] {l : List (κ × α)} {x k : κ}
    (v : α) (h : (aget l x).isSome) : (aget (aset l k v) x).isSome := by
  by_cases hxk : x = k
  · subst hxk
    rw [aget_aset_self]
    rfl
  · rw [aget_aset_ne hxk]
    exact h

theorem WFb_edge {net : CorridorNetwork} (hwf : WFb net = true) {u : String}
    {adj : List (String × String)} (hadj : aget net.graph u = some adj)
    {p : String × String} (hp : p ∈ adj) :
    ∃ seg, aget net.segment_data p.2 = some seg ∧ seg.fromI = u ∧ seg.toI = p.1 := by
  unfold WFb at hwf
  rw [List.all_eq_true] at hwf
  have h1 := hwf (u, adj) (aget_mem hadj)
  rw [List.all_eq_true] at h1
  have h2 := h1 p hp
  unfold segMatchesB at h2
  cases hs : aget net.segment_data p.2 with
  | none => rw [hs] at h2; cases h2
  | some seg =>
    rw [hs] at h2
    simp only [Bool.and_eq_true, decide_eq_true_eq] at h2
    exact ⟨seg, rfl, h2.1, h2.2⟩

theorem PosLen_seg {net : CorridorNetwork} (hpos : PosLenb net = true) {s : String}
    {seg : Segment} (hs : aget net.segment_data s = some seg) :
    0 < seg.length_km := by
  unfold PosLenb at hpos
  rw [List.all_eq_true] at hpos
  have := hpos (s, seg) (aget_mem hs)
  simpa using this

theorem outSum_nil (net : CorridorNetwork) : outSum net [] = edgeCount net := by
  unfold outSum edgeCount
  congr 1
  congr 1
  apply List.filter_eq_self.mpr
  intro e _
  simp

theorem sumFilter_mono (F : List String) (u : String) :
    ∀ (l : List (String × List (String × String))),
      ((l.filter (fun e => decide (e.1 ∉ u :: F))).map (fun e => e.2.length)).sum ≤
        ((l.filter (fun e => decide (e.1 ∉ F))).map (fun e => e.2.length)).sum
  | [] => le_rfl
  | e :: t => by
    by_cases h1 : e.1 ∉ u :: F
    · have h2 : e.1 ∉ F := fun hin => h1 (List.mem_cons_of_mem _ hin)
      simp only [List.filter_cons]
      rw [if_pos (by simpa using h1), if_pos (by simpa using h2)]
      simp only [List.map_cons, List.sum_cons]
      have := sumFilter_mono F u t
      omega
    · by_cases h2 : e.1 ∉ F
      · simp only [List.filter_cons]
        rw [if_neg (by simpa using h1), if_pos (by simpa using h2)]
        simp only [List.map_cons, List.sum_cons]
        have := sumFilter_mono F u t
        omega
      · simp only [List.filter_cons]
        rw [if_neg (by simpa using h1), if_neg (by simpa using h2)]
        exact sumFilter_mono F u t

theorem outSum_le_cons (net : CorridorNetwork) (F : List String) (u : String) :
    outSum net (u :: F) ≤ outSum net F :=
  sumFilter_mono F u net.graph

theorem outSum_cons_adj_aux (F : List String) (u : String)
    (adj : List (String × String)) (huF : u ∉ F) :
    ∀ (l : List (String × List (String × String))), aget l u = some adj →
      ((l.filter (fun e => decide (e.1 ∉ u :: F))).map (fun e => e.2.length)).sum +
          adj.length ≤
        ((l.filter (fun e => decide (e.1 ∉ F))).map (fun e => e.2.length)).sum
  | [], h => by cases h
  | e :: t, h => by
    obtain ⟨a, b⟩ := e
    by_cases hau : a = u
    · subst hau
      simp only [aget] at h
      have hb : b = adj := by simpa using h
      subst hb
      simp only [List.filter_cons]
      rw [if_neg (by simp), if_pos (by simpa using huF)]
      simp only [List.map_cons, List.sum_cons]
      have := sumFilter_mono F a t
      omega
    · simp only [aget] at h
      rw [if_neg hau] at h
      by_cases h2 : a ∉ F
      · have h1 : a ∉ u :: F := by
          intro hin
          rcases List.mem_cons.mp hin with rfl | hin
          · exact hau rfl
          · exact h2 hin
        simp only [List.filter_cons]
        rw [if_pos (by simpa using h1), if_pos (by simpa using h2)]
        simp only [List.map_cons, List.sum_cons]
        have := outSum_cons_adj_aux F u adj huF t h
        omega
      · have h1 : ¬ (a ∉ u :: F) := by
          intro hnin
          exact h2 (fun hin => hnin (List.mem_cons_of_mem _ hin))
        simp only [List.filter_cons]
        rw [if_neg (by simpa using h1), if_neg (by simpa using h2)]
        exact outSum_cons_adj_aux F u adj huF t h

theorem outSum_cons_adj (net : CorridorNetwork) (F : List String) (u : String)
    (adj : List (String × String)) (huF : u ∉ F)
    (hadj : aget net.graph u = some adj) :
    outSum net (u :: F) + adj.length ≤ outSum net F :=
  outSum_cons_adj_aux F u adj huF net.graph hadj

end CorridorNetwork

namespace CorridorNetwork

theorem IsWalk_snoc (net : CorridorNetwork) :
    ∀ {l : List String} {o u s : String} {seg : Segment},
      IsWalk net o u l → aget net.segment_data s = some seg → seg.fromI = u →
      IsWalk net o seg.toI (l ++ [s])
  | [], o, u, s, seg, hw, hs, hf => by
    have ho : o = u := hw
    subst ho
    exact ⟨seg, hs, hf, rfl⟩
  | s' :: t, o, u, s, seg, hw, hs, hf => by
    obtain ⟨seg', hs', hf', hrest⟩ := hw
    exact ⟨seg', hs', hf', IsWalk_snoc net hrest hs hf⟩

theorem pathLen_append_single (net : CorridorNetwork) (l : List String) (s : String) :
    pathLen net (l ++ [s]) =
      pathLen net l + ((aget net.segment_data s).map Segment.length_km).getD 0 := by
  simp [pathLen]

theorem countP_mono' {α : Type} (p q : α → Bool) :
    ∀ (l : List α), (∀ a ∈ l, p a = true → q a = true) →
      l.countP p ≤ l.countP q
  | [], _ => le_rfl
  | a :: t, h => by
    rw [List.countP_cons, List.countP_cons]
    have ht := countP_mono' p q t (fun x hx => h x (List.mem_cons_of_mem _ hx))
    by_cases hp : p a = true
    · rw [if_pos hp, if_pos (h a (List.mem_cons_self a t) hp)]
      omega
    · rw [if_neg hp]
      split <;> omega

theorem countP_strict {α : Type} (p q : α → Bool) :
    ∀ (l : List α), (∀ a ∈ l, p a = true → q a = true) →
      ∀ a0 : α, a0 ∈ l → q a0 = true → p a0 = false →
      l.countP p < l.countP q
  | [], _, a0, ha0, _, _ => absurd ha0 (List.not_mem_nil a0)
  | a :: t, h, a0, ha0, hq, hp => by
    rw [List.countP_cons, List.countP_cons]
    rcases List.mem_cons.mp ha0 with rfl | ha0t
    · rw [if_neg (by simp [hp]), if_pos hq]
      have := countP_mono' p q t (fun x hx => h x (List.mem_cons_of_mem _ hx))
      omega
    · have := countP_strict p q t (fun x hx => h x (List.mem_cons_of_mem _ hx)) a0 ha0t hq hp
      by_cases hpa : p a = true
      · rw [if_pos hpa, if_pos (h a (List.mem_cons_self a t) hpa)]
        omega
      · rw [if_neg hpa]
        split <;> omega

theorem reconstruct_ok (net : CorridorNetwork) (o : String)
    (dist : List (String × ℚ)) (parent parentSeg : List (String × Option String))
    (h_origin : aget dist o = some 0)
    (hp_origin : aget parent o = some none)
    (hchain : ∀ v q, aget dist v = some q → v ≠ o →
      ∃ u s seg qu, aget parent v = some (some u) ∧
        aget parentSeg v = some (some s) ∧
        aget dist u = some qu ∧
        aget net.segment_data s = some seg ∧ seg.fromI = u ∧ seg.toI = v ∧
        q = qu + seg.length_km ∧ qu < q) :
    ∀ (n : Nat) (v : String) (q : ℚ) (acc : List String),
      aget dist v = some q →
      dist.countP (fun e => decide (e.2 < q)) < n →
      ∃ segs, reconstruct parent parentSeg n v acc = some (segs ++ acc.reverse) ∧
        IsWalk net o v segs ∧ pathLen net segs = q := by
  intro n
  induction n with
  | zero => intro v q acc _ hm; omega
  | succ m ih =>
    intro v q acc hv hm
    by_cases hvo : v = o
    · subst hvo
      have hq0 : q = 0 := by
        rw [h_origin] at hv
        exact (Option.some.inj hv).symm
      refine ⟨[], ?_, rfl, by simp [pathLen, hq0]⟩
      unfold reconstruct
      rw [hp_origin]
      simp
    · obtain ⟨u, s, seg, qu, hpar, hpseg, hqu, hseg, hfrom, hto, heq, hlt⟩ :=
        hchain v q hv hvo
      have hmem : (u, qu) ∈ dist := aget_mem hqu
      have hcount : dist.countP (fun e => decide (e.2 < qu)) <
          dist.countP (fun e => decide (e.2 < q)) := by
        refine countP_strict _ _ dist ?_ (u, qu) hmem ?_ ?_
        · intro a _ hpa
          simp only [decide_eq_true_eq] at hpa ⊢
          exact lt_trans hpa hlt
        · simp [hlt]
        · simp
      have hm' : dist.countP (fun e => decide (e.2 < qu)) < m := by omega
      obtain ⟨segs, hrec, hwalk, hplen⟩ := ih u qu (acc ++ [s]) hqu hm'
      refine ⟨segs ++ [s], ?_, ?_, ?_⟩
      · have hstep : reconstruct parent parentSeg (m + 1) v acc =
            reconstruct parent parentSeg m u (acc ++ [s]) := by
          conv_lhs => unfold reconstruct
          rw [hpar, hpseg]
        rw [hstep, hrec]
        simp
      · rw [← hto]
        exact IsWalk_snoc net hwalk hseg hfrom
      · rw [pathLen_append_single, hplen, hseg]
        simp [heq]

end CorridorNetwork

namespace CorridorNetwork

theorem relaxEdge_inv (net : CorridorNetwork) (o dst : String)
    (hpos : PosLenb net = true)
    (F G : List String) (u : String) (d : ℚ) (st : DState)
    (hInv : DInv net o dst F G st)
    (huF : u ∈ F)
    (hu : aget st.dist u = some d)
    (hFd : ∀ x ∈ F, ∃ q, aget st.dist x = some q ∧ q ≤ d)
    (p : String × String) (seg : Segment)
    (hseg : aget net.segment_data p.2 = some seg)
    (hfrom : seg.fromI = u) (hto : seg.toI = p.1)
    (hedge : HasEdge net u p.2 p.1) :
    ∃ st', relaxEdge net u d st p = some st' ∧
      DInv net o dst F G st' ∧
      st'.pq.length ≤ st.pq.length + 1 ∧
      (aget st'.dist p.1).isSome ∧
      aget st'.dist u = some d ∧
      (∀ x ∈ F, ∃ q, aget st'.dist x = some q ∧ q ≤ d) ∧
      (∀ v, (aget st.dist v).isSome → (aget st'.dist v).isSome) := by
  have hw : 0 < seg.length_km := PosLen_seg hpos hseg
  have hd0 : 0 ≤ d := hInv.dist_nonneg u d hu
  have hndd : d < d + seg.length_km := by linarith
  have hnd0 : (0 : ℚ) ≤ d + seg.length_km := by linarith
  by_cases hlt : ((d + seg.length_km : ℚ) : WithTop ℚ) < distOf st.dist p.1
  · -- push branch
    have heq : relaxEdge net u d st p = some
        { dist := aset st.dist p.1 (d + seg.length_km)
          parent := aset st.parent p.1 (some u)
          parentSeg := aset st.parentSeg p.1 (some p.2)
          pq := st.pq ++ [((d + seg.length_km : ℚ), p.1)] } := by
      unfold relaxEdge
      rw [hseg]
      dsimp only
      rw [if_pos hlt]
    have hold : ∀ q0, aget st.dist p.1 = some q0 → d + seg.length_km < q0 := by
      intro q0 hq0
      have : distOf st.dist p.1 = (q0 : WithTop ℚ) := by
        unfold distOf; rw [hq0]
      rw [this] at hlt
      exact_mod_cast hlt
    have hvu : p.1 ≠ u := by
      intro h
      have := hold d (h ▸ hu)
      linarith
    have hvo : p.1 ≠ o := by
      intro h
      have := hold 0 (h ▸ hInv.dist_origin)
      linarith
    have hvF : p.1 ∉ F := by
      intro hin
      obtain ⟨q, hq, hqd⟩ := hFd p.1 hin
      have := hold q hq
      linarith
    refine ⟨_, heq, ⟨?_, ?_, ?_, ?_, ?_, ?_, ?_, ?_, ?_, ?_, ?_, ?_, ?_, ?_, ?_, ?_⟩,
      ?_, ?_, ?_, ?_, ?_⟩
    · -- dist_nonneg
      intro x q hx
      by_cases hxv : x = p.1
      · subst hxv
        rw [aget_aset_self] at hx
        exact (Option.some.inj hx) ▸ hnd0
      · rw [aget_aset_ne hxv] at hx
        exact hInv.dist_nonneg x q hx
    · -- pq_nonneg
      intro e he
      rcases List.mem_append.mp he with he | he
      · exact hInv.pq_nonneg e he
      · rw [List.mem_singleton.mp he]
        exact hnd0
    · -- dist_origin
      rw [aget_aset_ne hvo.symm]
      exact hInv.dist_origin
    · -- parent_origin
      rw [aget_aset_ne hvo.symm]
      exact hInv.parent_origin
    · -- pseg_origin
      rw [aget_aset_ne hvo.symm]
      exact hInv.pseg_origin
    · -- pq_bound
      intro e he
      rcases List.mem_append.mp he with he | he
      · obtain ⟨q0, hq0, hle⟩ := hInv.pq_bound e he
        by_cases hev : e.2 = p.1
        · refine ⟨d + seg.length_km, ?_, ?_⟩
          · rw [hev, aget_aset_self]
          · have := hold q0 (hev ▸ hq0)
            linarith
        · exact ⟨q0, by rw [aget_aset_ne hev]; exact hq0, hle⟩
      · rw [List.mem_singleton.mp he]
        exact ⟨d + seg.length_km, aget_aset_self _ _ _, le_rfl⟩
    · -- pq_unique
      intro x q hx
      rw [List.count_append]
      by_cases hxv : x = p.1
      · subst hxv
        rw [aget_aset_self] at hx
        have hq : q = d + seg.length_km := (Option.some.inj hx).symm
        subst hq
        have h0 : st.pq.count (d + seg.length_km, p.1) = 0 := by
          rw [List.count_eq_zero]
          intro hmem
          obtain ⟨q0, hq0, hle⟩ := hInv.pq_bound _ hmem
          have := hold q0 hq0
          dsimp only at hle
          linarith
        rw [h0]
        simp
      · rw [aget_aset_ne hxv] at hx
        have h0 : List.count (q, x) [((d + seg.length_km : ℚ), p.1)] = 0 := by
          rw [List.count_eq_zero]
          intro hmem
          exact hxv (congrArg Prod.snd (List.mem_singleton.mp hmem))
        rw [h0]
        have := hInv.pq_unique x q hx
        omega
    · -- final_le
      intro x hx
      have hxv : x ≠ p.1 := fun h => hvF (h ▸ hx)
      obtain ⟨q1, hq1, hb1⟩ := hInv.final_le x hx
      obtain ⟨q2, hq2, hle2⟩ := hFd x hx
      have hq12 : q1 = q2 := Option.some.inj (hq1 ▸ hq2)
      refine ⟨q1, by rw [aget_aset_ne hxv]; exact hq1, ?_⟩
      intro e he
      rcases List.mem_append.mp he with he | he
      · exact hb1 e he
      · rw [List.mem_singleton.mp he]
        dsimp only
        rw [hq12]
        linarith
    · -- final_stale
      intro x hx e he hev
      have hxv : x ≠ p.1 := fun h => hvF (h ▸ hx)
      rcases List.mem_append.mp he with he | he
      · obtain ⟨q, hq, hlt'⟩ := hInv.final_stale x hx e he hev
        exact ⟨q, by rw [aget_aset_ne hxv]; exact hq, hlt'⟩
      · exfalso
        have h1 : e.2 = p.1 := congrArg Prod.snd (List.mem_singleton.mp he)
        exact hxv (by rw [← hev, h1])
    · -- in_pq_or_final
      intro x q hx
      by_cases hxv : x = p.1
      · subst hxv
        rw [aget_aset_self] at hx
        left
        rw [← Option.some.inj hx]
        exact List.mem_append_right _ (List.mem_singleton.mpr rfl)
      · rw [aget_aset_ne hxv] at hx
        rcases hInv.in_pq_or_final x q hx with h | h
        · exact Or.inl (List.mem_append_left _ h)
        · exact Or.inr h
    · -- parent_chain
      intro x q hx hxo
      by_cases hxv : x = p.1
      · subst hxv
        rw [aget_aset_self] at hx
        have hq : q = d + seg.length_km := (Option.some.inj hx).symm
        refine ⟨u, p.2, seg, d, ?_, ?_, ?_, hseg, hfrom, hto, ?_, ?_, huF⟩
        · rw [aget_aset_self]
        · rw [aget_aset_self]
        · rw [aget_aset_ne hvu.symm]
          exact hu
        · rw [hq]
        · rw [hq]; exact hndd
      · rw [aget_aset_ne hxv] at hx
        obtain ⟨u', s', seg', qu', hp1, hp2, hp3, hp4, hp5, hp6, hp7, hp8, hp9⟩ :=
          hInv.parent_chain x q hx hxo
        have hu'v : u' ≠ p.1 := fun h => hvF (h ▸ hp9)
        exact ⟨u', s', seg', qu', by rw [aget_aset_ne hxv]; exact hp1,
          by rw [aget_aset_ne hxv]; exact hp2,
          by rw [aget_aset_ne hu'v]; exact hp3, hp4, hp5, hp6, hp7, hp8, hp9⟩
    · -- final_closure
      intro x hx adj hadj p' hp'
      exact aset_isSome_of _ (hInv.final_closure x hx adj hadj p' hp')
    · -- reach_dom
      intro x q hx
      by_cases hxv : x = p.1
      · subst hxv
        exact Reach.tail p.2 (hInv.reach_dom u d hu) hedge
      · rw [aget_aset_ne hxv] at hx
        exact hInv.reach_dom x q hx
    · -- dst_not_final
      exact hInv.dst_not_final
    · -- len_dist_parent
      dsimp only
      rw [aset_length, aset_length]
      by_cases hdom : (aget st.dist p.1).isSome
      · rw [if_pos hdom, if_pos ((hInv.dom_dist_parent p.1).mp hdom),
          hInv.len_dist_parent]
      · rw [if_neg hdom, if_neg (fun h => hdom ((hInv.dom_dist_parent p.1).mpr h)),
          hInv.len_dist_parent]
    · -- dom_dist_parent
      intro x
      by_cases hxv : x = p.1
      · subst hxv
        rw [aget_aset_self, aget_aset_self]
        simp
      · rw [aget_aset_ne hxv, aget_aset_ne hxv]
        exact hInv.dom_dist_parent x
    · -- pq length
      simp
    · -- dist p.1 isSome
      dsimp only
      rw [aget_aset_self]
      rfl
    · -- dist u preserved
      dsimp only
      rw [aget_aset_ne hvu.symm]
      exact hu
    · -- hFd preserved
      intro x hx
      have hxv : x ≠ p.1 := fun h => hvF (h ▸ hx)
      obtain ⟨q, hq, hle⟩ := hFd x hx
      exact ⟨q, by rw [aget_aset_ne hxv]; exact hq, hle⟩
    · -- dom monotone
      intro x hx
      exact aset_isSome_of _ hx
  · -- no-push branch
    have heq : relaxEdge net u d st p = some st := by
      unfold relaxEdge
      rw [hseg]
      dsimp only
      rw [if_neg hlt]
    have hisSome : (aget st.dist p.1).isSome := by
      cases hp1 : aget st.dist p.1 with
      | none =>
        exfalso
        apply hlt
        unfold distOf
        rw [hp1]
        exact WithTop.coe_lt_top _
      | some q => rfl
    exact ⟨st, heq, hInv, by omega, hisSome, hu, hFd, fun v hv => hv⟩

end CorridorNetwork

namespace CorridorNetwork

theorem relaxAll_inv (net : CorridorNetwork) (o dst : String)
    (hpos : PosLenb net = true) (F G : List String) (u : String) (d : ℚ) :
    ∀ (l : List (String × String)) (st : DState),
      DInv net o dst F G st →
      u ∈ F →
      aget st.dist u = some d →
      (∀ x ∈ F, ∃ q, aget st.dist x = some q ∧ q ≤ d) →
      (∀ p ∈ l, ∃ seg, aget net.segment_data p.2 = some seg ∧
        seg.fromI = u ∧ seg.toI = p.1) →
      (∀ p ∈ l, HasEdge net u p.2 p.1) →
      ∃ st', relaxAll net u d l st = some st' ∧
        DInv net o dst F G st' ∧
        st'.pq.length ≤ st.pq.length + l.length ∧
        (∀ p ∈ l, (aget st'.dist p.1).isSome) ∧
        (∀ v, (aget st.dist v).isSome → (aget st'.dist v).isSome)
  | [], st, hInv, _, _, _, _, _ =>
    ⟨st, rfl, hInv, by omega, fun p hp => absurd hp (List.not_mem_nil p),
      fun v hv => hv⟩
  | p :: rest, st, hInv, huF, hu, hFd, hWF, hEdge => by
    obtain ⟨seg, hseg, hfrom, hto⟩ := hWF p (List.mem_cons_self p rest)
    obtain ⟨st1, heq1, hInv1, hlen1, hsome1, hud1, hFd1, hmono1⟩ :=
      relaxEdge_inv net o dst hpos F G u d st hInv huF hu hFd p seg hseg hfrom hto
        (hEdge p (List.mem_cons_self p rest))
    obtain ⟨st2, heq2, hInv2, hlen2, hsome2, hmono2⟩ :=
      relaxAll_inv net o dst hpos F G u d rest st1 hInv1 huF hud1 hFd1
        (fun p' hp' => hWF p' (List.mem_cons_of_mem _ hp'))
        (fun p' hp' => hEdge p' (List.mem_cons_of_mem _ hp'))
    refine ⟨st2, ?_, hInv2, ?_, ?_, ?_⟩
    · unfold relaxAll
      rw [heq1]
      exact heq2
    · simp only [List.length_cons]
      omega
    · intro p' hp'
      rcases List.mem_cons.mp hp' with rfl | hp'
      · exact hmono2 _ hsome1
      · exact hsome2 p' hp'
    · exact fun v hv => hmono2 v (hmono1 v hv)

end CorridorNetwork

namespace CorridorNetwork

theorem count_le_of_perm_cons {α : Type} [BEq α] {l t : List α} {b : α}
    (h : l.Perm (b :: t)) (a : α) : List.count a t ≤ List.count a l := by
  have h1 : List.count a l = List.count a (b :: t) := h.countP_eq _
  rw [h1, List.count_cons]
  split <;> omega

theorem perm_cons_count_self {α : Type} [BEq α] [LawfulBEq α] {l t : List α}
    {b : α} (h : l.Perm (b :: t)) : List.count b l = List.count b t + 1 := by
  have h1 : List.count b l = List.count b (b :: t) := h.countP_eq _
  rw [h1, List.count_cons, if_pos (beq_self_eq_true b)]

theorem count_pos_of_mem2 {α : Type} [BEq α] [LawfulBEq α] {a : α} {l : List α}
    (h : a ∈ l) : 0 < List.count a l :=
  List.count_pos_iff_mem.mpr h

theorem DInv_upgrade {net : CorridorNetwork} {o dst : String} {F G : List String}
    {st : DState} (h : DInv net o dst F G st)
    (hclose : ∀ x ∈ F, ∀ adj, aget net.graph x = some adj →
      ∀ p ∈ adj, (aget st.dist p.1).isSome) :
    DInv net o dst F F st :=
  ⟨h.dist_nonneg, h.pq_nonneg, h.dist_origin, h.parent_origin, h.pseg_origin,
    h.pq_bound, h.pq_unique, h.final_le, h.final_stale, h.in_pq_or_final,
    h.parent_chain, hclose, h.reach_dom, h.dst_not_final, h.len_dist_parent,
    h.dom_dist_parent⟩

theorem DInv_stale_pop {net : CorridorNetwork} {o dst : String} {F : List String}
    {st : DState} {d : ℚ} {u : String} {pq' : List (ℚ × String)}
    (hInv : DInv net o dst F F st)
    (hperm : st.pq.Perm ((d, u) :: pq'))
    (hstale : distOf st.dist u < (d : WithTop ℚ)) :
    DInv net o dst F F { st with pq := pq' } := by
  have hsub : ∀ e ∈ pq', e ∈ st.pq :=
    fun e he => hperm.mem_iff.mpr (List.mem_cons_of_mem _ he)
  have hne_du : ∀ q x, aget st.dist x = some q → (q, x) ≠ (d, u) := by
    intro q x hx heq2
    have hx2 : x = u := congrArg Prod.snd heq2
    have hq2 : q = d := congrArg Prod.fst heq2
    subst hx2; subst hq2
    have : distOf st.dist x = (q : WithTop ℚ) := by unfold distOf; rw [hx]
    rw [this] at hstale
    exact absurd hstale (lt_irrefl _)
  refine ⟨hInv.dist_nonneg, ?_, hInv.dist_origin, hInv.parent_origin,
    hInv.pseg_origin, ?_, ?_, ?_, ?_, ?_, ?_, hInv.final_closure, hInv.reach_dom,
    hInv.dst_not_final, hInv.len_dist_parent, hInv.dom_dist_parent⟩
  · exact fun e he => hInv.pq_nonneg e (hsub e he)
  · exact fun e he => hInv.pq_bound e (hsub e he)
  · intro x q hx
    have h1 := hInv.pq_unique x q hx
    have h2 := count_le_of_perm_cons hperm (q, x)
    dsimp only at h1 ⊢
    omega
  · intro x hx
    obtain ⟨q, hq, hb⟩ := hInv.final_le x hx
    exact ⟨q, hq, fun e he => hb e (hsub e he)⟩
  · exact fun x hx e he hev => hInv.final_stale x hx e (hsub e he) hev
  · intro x q hx
    rcases hInv.in_pq_or_final x q hx with hm | hf
    · left
      have hm2 : (q, x) ∈ (d, u) :: pq' := hperm.mem_iff.mp hm
      rcases List.mem_cons.mp hm2 with heq2 | hm3
      · exact absurd heq2 (hne_du q x hx)
      · exact hm3
    · exact Or.inr hf
  · intro x q hx hxo
    exact hInv.parent_chain x q hx hxo

theorem DInv_after_pop {net : CorridorNetwork} {o dst : String} {F : List String}
    {st : DState} {d : ℚ} {u : String} {pq' : List (ℚ × String)}
    (hInv : DInv net o dst F F st)
    (hperm : st.pq.Perm ((d, u) :: pq'))
    (hmin : ∀ x ∈ st.pq, pqLe (d, u) x)
    (hqd : aget st.dist u = some d)
    (hudst : u ≠ dst) :
    DInv net o dst (u :: F) F { st with pq := pq' } ∧ u ∉ F ∧
      (∀ x ∈ u :: F, ∃ q, aget st.dist x = some q ∧ q ≤ d) := by
  have hmem_du : (d, u) ∈ st.pq := hperm.mem_iff.mpr (List.mem_cons_self _ _)
  have hsub : ∀ e ∈ pq', e ∈ st.pq :=
    fun e he => hperm.mem_iff.mpr (List.mem_cons_of_mem _ he)
  have hndu : (d, u) ∉ pq' := by
    have h1 := hInv.pq_unique u d hqd
    have h2 := perm_cons_count_self hperm
    intro hmem
    have h3 := count_pos_of_mem2 hmem
    omega
  have huF : u ∉ F := by
    intro hin
    obtain ⟨q, hq, hlt⟩ := hInv.final_stale u hin (d, u) hmem_du rfl
    have : q = d := Option.some.inj (hq ▸ hqd)
    dsimp only at hlt
    linarith [this ▸ hlt]
  have hFd : ∀ x ∈ u :: F, ∃ q, aget st.dist x = some q ∧ q ≤ d := by
    intro x hx
    rcases List.mem_cons.mp hx with rfl | hx
    · exact ⟨d, hqd, le_rfl⟩
    · obtain ⟨q, hq, hb⟩ := hInv.final_le x hx
      exact ⟨q, hq, hb (d, u) hmem_du⟩
  refine ⟨⟨hInv.dist_nonneg, ?_, hInv.dist_origin, hInv.parent_origin,
    hInv.pseg_origin, ?_, ?_, ?_, ?_, ?_, ?_, hInv.final_closure, hInv.reach_dom,
    ?_, hInv.len_dist_parent, hInv.dom_dist_parent⟩, huF, hFd⟩
  · exact fun e he => hInv.pq_nonneg e (hsub e he)
  · exact fun e he => hInv.pq_bound e (hsub e he)
  · intro x q hx
    have h1 := hInv.pq_unique x q hx
    have h2 := count_le_of_perm_cons hperm (q, x)
    dsimp only at h1 ⊢
    omega
  · -- final_le over u :: F
    intro x hx
    rcases List.mem_cons.mp hx with rfl | hx
    · refine ⟨d, hqd, ?_⟩
      intro e he
      exact pqLe_fst_le (hmin e (hsub e he))
    · obtain ⟨q, hq, hb⟩ := hInv.final_le x hx
      exact ⟨q, hq, fun e he => hb e (hsub e he)⟩
  · -- final_stale over u :: F
    intro x hx e he hev
    rcases List.mem_cons.mp hx with rfl | hx
    · refine ⟨d, hqd, ?_⟩
      obtain ⟨qe, hqe, hqele⟩ := hInv.pq_bound e (hsub e he)
      rw [hev] at hqe
      have hqe_d : qe = d := Option.some.inj (hqe ▸ hqd)
      have hdle : d ≤ e.1 := hqe_d ▸ hqele
      rcases lt_or_eq_of_le hdle with hlt | heq2
      · exact hlt
      · exfalso
        apply hndu
        have : e = (d, x) := Prod.ext heq2.symm hev
        rw [← this]
        exact he
    · exact hInv.final_stale x hx e (hsub e he) hev
  · -- in_pq_or_final over u :: F
    intro x q hx
    rcases hInv.in_pq_or_final x q hx with hm | hf
    · have hm2 : (q, x) ∈ (d, u) :: pq' := hperm.mem_iff.mp hm
      rcases List.mem_cons.mp hm2 with heq2 | hm3
      · right
        have hx2 : x = u := congrArg Prod.snd heq2
        rw [hx2]
        exact List.mem_cons_self _ _
      · exact Or.inl hm3
    · exact Or.inr (List.mem_cons_of_mem _ hf)
  · -- parent_chain weakened to u :: F
    intro x q hx hxo
    obtain ⟨u', s', seg', qu', h1, h2, h3, h4, h5, h6, h7, h8, h9⟩ :=
      hInv.parent_chain x q hx hxo
    exact ⟨u', s', seg', qu', h1, h2, h3, h4, h5, h6, h7, h8,
      List.mem_cons_of_mem _ h9⟩
  · -- dst not final
    intro hmem
    rcases List.mem_cons.mp hmem with heq2 | hmem
    · exact hudst heq2.symm
    · exact hInv.dst_not_final hmem

end CorridorNetwork

namespace CorridorNetwork

theorem dloop_spec (net : CorridorNetwork) (o dst : String)
    (hwf : WFb net = true) (hpos : PosLenb net = true) :
    ∀ (n : Nat) (F : List String) (st : DState),
      DInv net o dst F F st →
      st.pq.length + outSum net F < n →
      ∃ p dres, dloop net dst n st = some (p, dres) ∧
        (Reach net o dst → IsWalk net o dst p ∧
          dres = ((pathLen net p : ℚ) : WithTop ℚ)) ∧
        (¬ Reach net o dst → p = [] ∧ dres = ⊤) := by
  intro n
  induction n with
  | zero => intro F st _ hμ; omega
  | succ m ih =>
    intro F st hInv hμ
    cases hpop : popMin st.pq with
    | none =>
      have hempty : st.pq = [] := popMin_eq_none hpop
      have heq : dloop net dst (m + 1) st = some ([], ⊤) := by
        conv_lhs => unfold dloop
        rw [hpop]
      have hdom : ∀ v, Reach net o v → (aget st.dist v).isSome := by
        intro v hR
        induction hR with
        | refl => rw [hInv.dist_origin]; rfl
        | tail s h hedge ihR =>
          obtain ⟨adj, hadj, hmem⟩ := hedge
          obtain ⟨qb, hqb⟩ := Option.isSome_iff_exists.mp ihR
          rcases hInv.in_pq_or_final _ qb hqb with hmem2 | hbF
          · rw [hempty] at hmem2
            exact absurd hmem2 (List.not_mem_nil _)
          · exact hInv.final_closure _ hbF adj hadj _ hmem
      have hnr : ¬ Reach net o dst := by
        intro hR
        obtain ⟨qd, hqd⟩ := Option.isSome_iff_exists.mp (hdom dst hR)
        rcases hInv.in_pq_or_final dst qd hqd with hmem2 | hdF
        · rw [hempty] at hmem2
          exact absurd hmem2 (List.not_mem_nil _)
        · exact hInv.dst_not_final hdF
      exact ⟨[], ⊤, heq, fun hR => absurd hR hnr, fun _ => ⟨rfl, rfl⟩⟩
    | some pr =>
      obtain ⟨⟨d, u⟩, pq'⟩ := pr
      have hperm := popMin_perm hpop
      have hmin := popMin_min hpop
      have hmem_du : (d, u) ∈ st.pq := hperm.mem_iff.mpr (List.mem_cons_self _ _)
      have hlen_eq : st.pq.length = pq'.length + 1 := by
        have h := hperm.length_eq
        simpa using h
      by_cases hstale : distOf st.dist u < (d : WithTop ℚ)
      · have heq : dloop net dst (m + 1) st =
            dloop net dst m { st with pq := pq' } := by
          conv_lhs => unfold dloop
          rw [hpop]
          dsimp only
          rw [if_pos hstale]
        rw [heq]
        refine ih F { st with pq := pq' } (DInv_stale_pop hInv hperm hstale) ?_
        dsimp only
        omega
      · obtain ⟨qd, hqd0, hqdle⟩ := hInv.pq_bound (d, u) hmem_du
        dsimp only at hqd0 hqdle
        have hqd : aget st.dist u = some d := by
          have hle2 : d ≤ qd := by
            by_contra hlt2
            push_neg at hlt2
            apply hstale
            unfold distOf
            rw [hqd0]
            show ((qd : ℚ) : WithTop ℚ) < ((d : ℚ) : WithTop ℚ)
            exact_mod_cast hlt2
          have : qd = d := le_antisymm hqdle hle2
          rw [← this]
          exact hqd0
        by_cases hudst : u = dst
        · have hchain : ∀ v q, aget st.dist v = some q → v ≠ o →
              ∃ u' s seg qu, aget st.parent v = some (some u') ∧
                aget st.parentSeg v = some (some s) ∧
                aget st.dist u' = some qu ∧
                aget net.segment_data s = some seg ∧ seg.fromI = u' ∧
                seg.toI = v ∧ q = qu + seg.length_km ∧ qu < q := by
            intro v q hv hvo
            obtain ⟨u', s', seg', qu', h1, h2, h3, h4, h5, h6, h7, h8, _⟩ :=
              hInv.parent_chain v q hv hvo
            exact ⟨u', s', seg', qu', h1, h2, h3, h4, h5, h6, h7, h8⟩
          have hmeas : st.dist.countP (fun e => decide (e.2 < d)) <
              st.parent.length + 1 := by
            have h1 : st.dist.countP (fun e => decide (e.2 < d)) ≤
                st.dist.length := by
              rw [List.countP_eq_length_filter]
              exact List.length_filter_le _ _
            rw [hInv.len_dist_parent] at h1
            omega
          obtain ⟨segs, hrec, hwalk, hplen⟩ :=
            reconstruct_ok net o st.dist st.parent st.parentSeg
              hInv.dist_origin hInv.parent_origin hchain
              (st.parent.length + 1) u d [] hqd hmeas
          have hrec' : reconstruct st.parent st.parentSeg
              (st.parent.length + 1) u [] = some segs := by
            simpa using hrec
          have heq : dloop net dst (m + 1) st = some (segs, (d : WithTop ℚ)) := by
            conv_lhs => unfold dloop
            rw [hpop]
            dsimp only
            rw [if_neg hstale, if_pos hudst, hqd]
            dsimp only
            rw [hrec']
          have hreach : Reach net o dst := hudst ▸ hInv.reach_dom u d hqd
          have hwalk' : IsWalk net o dst segs := hudst ▸ hwalk
          exact ⟨segs, (d : WithTop ℚ), heq,
            fun _ => ⟨hwalk', by rw [hplen]⟩,
            fun hnr => absurd hreach hnr⟩
        · obtain ⟨hInvMid, huF, hFd⟩ := DInv_after_pop hInv hperm hmin hqd hudst
          cases hadj : aget net.graph u with
          | none =>
            have heq : dloop net dst (m + 1) st =
                dloop net dst m { st with pq := pq' } := by
              conv_lhs => unfold dloop
              rw [hpop]
              dsimp only
              rw [if_neg hstale, if_neg hudst, hadj]
              dsimp only [Option.getD]
              rw [relaxAll]
            have hInv2 : DInv net o dst (u :: F) (u :: F)
                { st with pq := pq' } := by
              refine DInv_upgrade hInvMid ?_
              intro x hx adj0 hadj0 p' hp'
              rcases List.mem_cons.mp hx with rfl | hx
              · rw [hadj] at hadj0
                cases hadj0
              · exact hInvMid.final_closure x hx adj0 hadj0 p' hp'
            rw [heq]
            refine ih (u :: F) { st with pq := pq' } hInv2 ?_
            have hout := outSum_le_cons net F u
            dsimp only
            omega
          | some adj =>
            have hWF' : ∀ p ∈ adj, ∃ seg, aget net.segment_data p.2 = some seg ∧
                seg.fromI = u ∧ seg.toI = p.1 :=
              fun p hp => WFb_edge hwf hadj hp
            have hEdge' : ∀ p ∈ adj, HasEdge net u p.2 p.1 :=
              fun p hp => ⟨adj, hadj, hp⟩
            obtain ⟨st2, heqR, hInv2, hlen2, hsome2, hmono2⟩ :=
              relaxAll_inv net o dst hpos (u :: F) F u d adj
                { st with pq := pq' } hInvMid (List.mem_cons_self _ _) hqd hFd
                hWF' hEdge'
            have heq : dloop net dst (m + 1) st = dloop net dst m st2 := by
              conv_lhs => unfold dloop
              rw [hpop]
              dsimp only
              rw [if_neg hstale, if_neg hudst, hadj]
              dsimp only [Option.getD]
              rw [heqR]
            have hInv3 : DInv net o dst (u :: F) (u :: F) st2 := by
              refine DInv_upgrade hInv2 ?_
              intro x hx adj0 hadj0 p' hp'
              rcases List.mem_cons.mp hx with rfl | hx
              · rw [hadj] at hadj0
                have : adj0 = adj := (Option.some.inj hadj0).symm
                subst this
                exact hsome2 p' hp'
              · exact hInv2.final_closure x hx adj0 hadj0 p' hp'
            rw [heq]
            refine ih (u :: F) st2 hInv3 ?_
            have hout := outSum_cons_adj net F u adj huF hadj
            dsimp only at hlen2
            omega

end CorridorNetwork

namespace CorridorNetwork

theorem aget_singleton {κ α : Type} [DecidableEq κ] (k x : κ) (v : α) :
    aget [(k, v)] x = if k = x then some v else none := by
  simp [aget]

theorem DInv_init (net : CorridorNetwork) (o dst : String) :
    DInv net o dst [] [] (initState o) := by
  refine ⟨?_, ?_, ?_, ?_, ?_, ?_, ?_, ?_, ?_, ?_, ?_, ?_, ?_, ?_, ?_, ?_⟩
  · intro v q hx
    rw [show (initState o).dist = [(o, 0)] from rfl, aget_singleton] at hx
    split at hx
    · rw [← Option.some.inj hx]
    · cases hx
  · intro e he
    rcases List.mem_singleton.mp he with rfl
    exact le_rfl
  · rw [show (initState o).dist = [(o, 0)] from rfl, aget_singleton, if_pos rfl]
  · rw [show (initState o).parent = [(o, none)] from rfl, aget_singleton, if_pos rfl]
  · rw [show (initState o).parentSeg = [(o, none)] from rfl, aget_singleton,
      if_pos rfl]
  · intro e he
    rcases List.mem_singleton.mp he with rfl
    exact ⟨0, by rw [show (initState o).dist = [(o, 0)] from rfl, aget_singleton,
      if_pos rfl], le_rfl⟩
  · intro v q hx
    rw [show (initState o).dist = [(o, 0)] from rfl, aget_singleton] at hx
    split at hx
    · rename_i hov
      rw [← hov, ← Option.some.inj hx]
      simp [initState]
    · cases hx
  · intro v hv
    exact absurd hv (List.not_mem_nil v)
  · intro v hv
    exact absurd hv (List.not_mem_nil v)
  · intro v q hx
    rw [show (initState o).dist = [(o, 0)] from rfl, aget_singleton] at hx
    split at hx
    · rename_i hov
      left
      rw [← hov, ← Option.some.inj hx]
      exact List.mem_singleton.mpr rfl
    · cases hx
  · intro v q hx hvo
    rw [show (initState o).dist = [(o, 0)] from rfl, aget_singleton] at hx
    split at hx
    · rename_i hov
      exact absurd hov.symm hvo
    · cases hx
  · intro x hx
    exact absurd hx (List.not_mem_nil x)
  · intro v q hx
    rw [show (initState o).dist = [(o, 0)] from rfl, aget_singleton] at hx
    split at hx
    · rename_i hov
      rw [← hov]
      exact Reach.refl o
    · cases hx
  · exact List.not_mem_nil dst
  · rfl
  · intro v
    rw [show (initState o).dist = [(o, 0)] from rfl,
      show (initState o).parent = [(o, none)] from rfl,
      aget_singleton, aget_singleton]
    by_cases h : o = v
    · rw [if_pos h, if_pos h]
      simp
    · rw [if_neg h, if_neg h]
      simp

/-- C4: on a well-formed network (every adjacency edge's segment id resolves
and matches its endpoints) with strictly positive segment lengths and an
empty path cache, `dijkstra` returns, for every origin-destination pair,
`some` result whose path is a connected directed walk from origin to
destination with the returned distance equal to the sum of the returned
segments' lengths whenever the destination is reachable, and the empty path
with infinite distance whenever it is unreachable. -/
theorem dijkstra_correct (net : CorridorNetwork) (o dst : String)
    (hwf : WFb net = true) (hpos : PosLenb net = true)
    (hpre : net.precomputed_paths = []) :
    ∃ p d net', dijkstra net o dst = some ((p, d), net') ∧
      (Reach net o dst → IsWalk net o dst p ∧
        d = ((pathLen net p : ℚ) : WithTop ℚ)) ∧
      (¬ Reach net o dst → p = [] ∧ d = ⊤) := by
  have hμ : (initState o).pq.length + outSum net [] < dijkstraFuel net := by
    rw [outSum_nil]
    show 1 + edgeCount net < edgeCount net + 2
    omega
  obtain ⟨p, dres, heq, h1, h2⟩ :=
    dloop_spec net o dst hwf hpos (dijkstraFuel net) [] (initState o)
      (DInv_init net o dst) hμ
  have hcache : aget net.precomputed_paths (o, dst) = none := by
    rw [hpre]
    rfl
  by_cases hd : dres = ⊤
  · refine ⟨p, dres, net, ?_, h1, h2⟩
    unfold dijkstra
    rw [hcache]
    dsimp only
    rw [heq]
    dsimp only
    rw [if_pos hd]
  · refine ⟨p, dres,
      { net with
          precomputed_paths := aset net.precomputed_paths (o, dst) (p, dres) },
      ?_, h1, h2⟩
    unfold dijkstra
    rw [hcache]
    dsimp only
    rw [heq]
    dsimp only
    rw [if_neg hd]

end CorridorNetwork

/-- C4 (witness): `dijkstra_correct` instantiated on the concrete triangle
network from `"A"` to `"C"`, with all three hypotheses discharged by
evaluation. -/
theorem dijkstra_correct_witness :
    CorridorNetwork.WFb triNet = true ∧ CorridorNetwork.PosLenb triNet = true ∧
    triNet.precomputed_paths = [] ∧
    (∃ p d net', CorridorNetwork.dijkstra triNet "A" "C" = some ((p, d), net') ∧
      (CorridorNetwork.Reach triNet "A" "C" →
        CorridorNetwork.IsWalk triNet "A" "C" p ∧
        d = ((CorridorNetwork.pathLen triNet p : ℚ) : WithTop ℚ)) ∧
      (¬ CorridorNetwork.Reach triNet "A" "C" → p = [] ∧ d = ⊤)) :=
  ⟨by decide, by decide, rfl,
    CorridorNetwork.dijkstra_correct triNet "A" "C" (by decide) (by decide) rfl⟩
